import Mathlib

/-!
Verification development for the iot-sensor-network-simulator repository.

The core of the program (cmd/simulator/main.go, internal/sensor/sensor.go,
the aggregator of src/unnamed/part_002) is embedded as an executable
small-step transition system: a system state together with a partial step
function indexed by labels.  Each label corresponds to one atomic action of
one goroutine of the Go program; a list of labels is one interleaving
(one schedule), and `run` executes it.  Guards of the Go code (select
readiness, channel capacity, context cancellation) become side conditions
under which `step` returns `none`, so every `some` result of `run` is a
real execution of the program.

The float value and the timestamp of model.SensorData are irrelevant to
every claim below; the value is abstracted to a natural number drawn from
the private random state of the slot (the distribution of math/rand plays
no role), and the timestamp is dropped.
-/

namespace IotSim

/-- model.SensorData (src/unnamed/part_004): one reading emitted by a sensor.
The Value float is abstracted to a Nat sample; Timestamp is dropped. -/
structure SensorData where
  id : Nat
  value : Nat
deriving DecidableEq, Repr

/-- The shared buffered channel, `make(chan model.SensorData, 1000)` in
main.go line 108: a FIFO buffer of fixed capacity plus a closed flag. -/
structure Chan where
  buf : List SensorData
  cap : Nat
  closed : Bool
deriving DecidableEq, Repr

/-- Program counter of one sensor slot: the Run goroutine of
internal/sensor/sensor.go together with the recover handler of Start. -/
inductive Phase where
  /-- at the top of the for/select loop of Sensor.Run (sensor.go line 63) -/
  | selecting
  /-- the select committed to the ticker branch and built `data`;
  the goroutine is at the blocking statement `s.DataCh <- data`
  (sensor.go line 79) -/
  | sending (d : SensorData)
  /-- Run returned through the ctx.Done branch (sensor.go line 65) -/
  | doneRun
  /-- Run was unwound by a panic; the deferred recover of Start
  (sensor.go line 95) is about to execute -/
  | panicked
  /-- the recover handler saw ctx.Err() == nil (sensor.go line 101) and is
  about to record the restart and call Start again -/
  | restartPending
  /-- the recover handler saw a cancelled context: the slot is terminal -/
  | stopped
deriving DecidableEq, Repr

/-- One producer slot: the state owned by sensor id `id`.  `sent` is the
metrics.MessagesSent counter of this id, `restarts` the
metrics.SensorRestarts counter, `rng` the private random state, and
`wrapperDone` records whether the wrapper goroutine of main.go lines
162-170 has returned (i.e. sensorsWg.Done has run for this slot). -/
structure Slot where
  id : Nat
  phase : Phase
  rng : Nat
  sent : Nat
  restarts : Nat
  wrapperDone : Bool
deriving DecidableEq, Repr

/-- Program counter of the aggregator goroutine (Aggregator.Run of
src/unnamed/part_002). -/
inductive AggPhase where
  | running
  | exited
deriving DecidableEq, Repr

/-- Aggregator state: its phase and its `count` variable, which is also the
metrics.MessagesReceived counter (incremented together, part_002 lines
57-62). -/
structure AggState where
  phase : AggPhase
  count : Nat
deriving DecidableEq, Repr

/-- Program counter of the NATS publisher goroutine (Publisher.Run of
internal/publisher/publisher.go, started by main.go lines 127-134 on the
same shared data channel as the aggregator). -/
inductive PubPhase where
  | running
  | exited
deriving DecidableEq, Repr

/-- Publisher state in the shared-channel semantics: its phase and the
number of readings it has taken off the channel.  Whether each publish
attempt succeeds or fails is irrelevant here — the loop consumes the
reading and continues either way (publisher.go lines 70-90); the
success/failure counters are modelled separately for claim C8. -/
structure PubComp where
  phase : PubPhase
  received : Nat
deriving DecidableEq, Repr

/-- The whole system: the context cancellation flag (ctx of main.go line
104, one-way), the shared data channel, the producer slots, the
aggregator, and the publisher.  Both consumers receive from the same
channel (main.go lines 123 and 132), so each buffered reading goes to
exactly one of them.  A run of the program with NATS disabled is a
schedule that never fires a publisher label. -/
structure SysState where
  cancelled : Bool
  ch : Chan
  slots : List Slot
  agg : AggState
  pub : PubComp
deriving DecidableEq, Repr

/-- One atomic action of one goroutine.  A list of labels is one
interleaving of the program. -/
inductive Label where
  /-- the cancellation signal fires: interrupt or simulation timeout
  (main.go lines 95-99 and 104) -/
  | cancel
  /-- the select of slot i commits to the ticker branch and samples a
  reading (sensor.go lines 68-78) -/
  | tick (i : Nat)
  /-- slot i executes the statement `s.DataCh <- data` (sensor.go line 79):
  it appends to the buffer if the channel is open and has room, panics if
  the channel is closed, and blocks (no step) if the channel is full -/
  | send (i : Nat)
  /-- the select of slot i takes the ctx.Done branch and Run returns
  (sensor.go lines 64-66); only enabled once cancelled -/
  | observeCancel (i : Nat)
  /-- an injected abnormal termination (panic) inside Run of slot i -/
  | fault (i : Nat)
  /-- the recover handler of slot i reads ctx.Err() and finds it nil
  (sensor.go line 101): a restart will follow -/
  | recoverCheck (i : Nat)
  /-- the recover handler of slot i reads ctx.Err() and finds the context
  cancelled: the slot stops permanently (sensor.go lines 99-101) -/
  | recoverStop (i : Nat)
  /-- slot i records the restart in metrics.SensorRestarts and the new
  Start invocation begins a fresh Run under the same id
  (sensor.go lines 103-107) -/
  | restartStart (i : Nat)
  /-- the wrapper goroutine of slot i returns after seeing ctx.Done,
  running sensorsWg.Done (main.go lines 162-170); note it does not wait
  for Run of the slot to return -/
  | wrapperExit (i : Nat)
  /-- the closer goroutine: sensorsWg.Wait() has returned (all wrappers
  done) and main closes the data channel (main.go lines 180-188) -/
  | closeCh
  /-- the aggregator receives one buffered reading and counts it
  (part_002 lines 51-62) -/
  | aggRecv
  /-- the select of the aggregator takes the ctx.Done branch and Run
  returns (part_002 lines 48-50); enabled whenever cancelled -/
  | aggCancelExit
  /-- the aggregator receive yields ok = false (channel closed and empty)
  and Run returns (part_002 lines 53-55) -/
  | aggCloseExit
  /-- the summary ticker branch of the aggregator fires and logs
  (part_002 lines 63-64); no state change -/
  | aggSummary
  /-- the publisher receives one buffered reading from the shared channel
  (publisher.go line 62) and processes it; the loop continues whether the
  publish attempt succeeds or fails (publisher.go lines 70-90) -/
  | pubRecv
  /-- the select of the publisher takes the ctx.Done branch and Run
  returns (publisher.go lines 56-60); enabled whenever cancelled -/
  | pubCancelExit
  /-- the publisher receive yields ok = false (channel closed and empty)
  and Run returns (publisher.go lines 63-67) -/
  | pubCloseExit
  /-- the statistics ticker branch of the publisher fires and logs
  (publisher.go lines 92-98); no state change -/
  | pubStatsTick
deriving DecidableEq, Repr

/-- Step of `Label.cancel`: the one-way cancellation flag is set (it is a
one-shot broadcast; a second request is idempotent and modelled as no
step). -/
def stepCancel (s : SysState) : Option SysState :=
  if s.cancelled then none else some { s with cancelled := true }

/-- Step of `Label.tick i` (sensor.go lines 68-78): from the top of the
loop, commit to the ticker branch, sample a value from the private random
state and build the SensorData. -/
def stepTick (s : SysState) (i : Nat) : Option SysState :=
  match s.slots.get? i with
  | some sl =>
    match sl.phase with
    | Phase.selecting =>
        let sl2 : Slot := { sl with phase := Phase.sending ⟨sl.id, sl.rng⟩, rng := sl.rng + 1 }
        some { s with slots := s.slots.set i sl2 }
    | _ => none
  | none => none

/-- Step of `Label.send i` (sensor.go lines 79-84): execute
`s.DataCh <- data`.  Sending on a closed channel panics (Go semantics);
sending on an open channel with room appends and then the MessagesSent
counter is incremented; a full open channel blocks the goroutine. -/
def stepSend (s : SysState) (i : Nat) : Option SysState :=
  match s.slots.get? i with
  | some sl =>
    match sl.phase with
    | Phase.sending d =>
        if s.ch.closed then
          let sl2 : Slot := { sl with phase := Phase.panicked }
          some { s with slots := s.slots.set i sl2 }
        else if s.ch.buf.length < s.ch.cap then
          let sl2 : Slot := { sl with phase := Phase.selecting, sent := sl.sent + 1 }
          some { s with ch := { s.ch with buf := s.ch.buf ++ [d] },
                        slots := s.slots.set i sl2 }
        else none
    | _ => none
  | none => none

/-- Step of `Label.observeCancel i` (sensor.go lines 64-66): the ctx.Done
branch of the select is only ready once the context is cancelled; taking
it makes Run return. -/
def stepObserveCancel (s : SysState) (i : Nat) : Option SysState :=
  match s.slots.get? i with
  | some sl =>
    match sl.phase with
    | Phase.selecting =>
        if s.cancelled then
          let sl2 : Slot := { sl with phase := Phase.doneRun }
          some { s with slots := s.slots.set i sl2 }
        else none
    | _ => none
  | none => none

/-- Step of `Label.fault i`: an unexpected abnormal termination inside the
running Run invocation of slot i; the goroutine unwinds to the deferred
recover of Start. -/
def stepFault (s : SysState) (i : Nat) : Option SysState :=
  match s.slots.get? i with
  | some sl =>
    match sl.phase with
    | Phase.selecting =>
        let sl2 : Slot := { sl with phase := Phase.panicked }
        some { s with slots := s.slots.set i sl2 }
    | Phase.sending _ =>
        let sl2 : Slot := { sl with phase := Phase.panicked }
        some { s with slots := s.slots.set i sl2 }
    | _ => none
  | none => none

/-- Step of `Label.recoverCheck i` (sensor.go line 101): the recover
handler reads ctx.Err(); this step is the case where it is nil (context
not yet cancelled), so a restart will follow. -/
def stepRecoverCheck (s : SysState) (i : Nat) : Option SysState :=
  match s.slots.get? i with
  | some sl =>
    match sl.phase with
    | Phase.panicked =>
        if s.cancelled then none
        else
          let sl2 : Slot := { sl with phase := Phase.restartPending }
          some { s with slots := s.slots.set i sl2 }
    | _ => none
  | none => none

/-- Step of `Label.recoverStop i` (sensor.go lines 99-110): the recover
handler reads ctx.Err() and the context is cancelled, so no restart is
attempted and the slot goroutine ends permanently. -/
def stepRecoverStop (s : SysState) (i : Nat) : Option SysState :=
  match s.slots.get? i with
  | some sl =>
    match sl.phase with
    | Phase.panicked =>
        if s.cancelled then
          let sl2 : Slot := { sl with phase := Phase.stopped }
          some { s with slots := s.slots.set i sl2 }
        else none
    | _ => none
  | none => none

/-- Step of `Label.restartStart i` (sensor.go lines 103-107): having passed
the ctx.Err() check, the handler increments metrics.SensorRestarts for the
id and calls Start again, which begins a new Run under the same id. -/
def stepRestartStart (s : SysState) (i : Nat) : Option SysState :=
  match s.slots.get? i with
  | some sl =>
    match sl.phase with
    | Phase.restartPending =>
        let sl2 : Slot := { sl with phase := Phase.selecting, restarts := sl.restarts + 1 }
        some { s with slots := s.slots.set i sl2 }
    | _ => none
  | none => none

/-- Step of `Label.wrapperExit i` (main.go lines 162-170): the wrapper
goroutine returns as soon as it sees ctx.Done — sensor.Start returned
immediately after spawning the Run goroutine, so the wrapper does not wait
for Run; its deferred sensorsWg.Done runs here. -/
def stepWrapperExit (s : SysState) (i : Nat) : Option SysState :=
  match s.slots.get? i with
  | some sl =>
    if s.cancelled then
      if sl.wrapperDone then none
      else
        let sl2 : Slot := { sl with wrapperDone := true }
        some { s with slots := s.slots.set i sl2 }
    else none
  | none => none

/-- Step of `Label.closeCh` (main.go lines 180-188): the closer goroutine
passes sensorsWg.Wait() once every wrapper has run Done, then closes the
data channel (once). -/
def stepCloseCh (s : SysState) : Option SysState :=
  if s.ch.closed then none
  else if s.slots.all (fun sl => sl.wrapperDone) then
    some { s with ch := { s.ch with closed := true } }
  else none

/-- Step of `Label.aggRecv` (part_002 lines 51-62): the aggregator receive
branch fires with ok = true, MessagesReceived is incremented and the local
count advances. -/
def stepAggRecv (s : SysState) : Option SysState :=
  match s.agg.phase with
  | AggPhase.running =>
    match s.ch.buf with
    | [] => none
    | _ :: rest =>
        some { s with ch := { s.ch with buf := rest },
                      agg := { s.agg with count := s.agg.count + 1 } }
  | AggPhase.exited => none

/-- Step of `Label.aggCancelExit` (part_002 lines 48-50): the ctx.Done
branch of the aggregator select; ready whenever the context is cancelled,
regardless of buffered readings. -/
def stepAggCancelExit (s : SysState) : Option SysState :=
  match s.agg.phase with
  | AggPhase.running =>
      if s.cancelled then some { s with agg := { s.agg with phase := AggPhase.exited } }
      else none
  | AggPhase.exited => none

/-- Step of `Label.aggCloseExit` (part_002 lines 53-55): a receive on a
closed channel yields ok = false only once the buffer is drained. -/
def stepAggCloseExit (s : SysState) : Option SysState :=
  match s.agg.phase with
  | AggPhase.running =>
      if s.ch.closed then
        match s.ch.buf with
        | [] => some { s with agg := { s.agg with phase := AggPhase.exited } }
        | _ :: _ => none
      else none
  | AggPhase.exited => none

/-- Step of `Label.aggSummary` (part_002 lines 63-64): the summary ticker
branch only logs; no state change. -/
def stepAggSummary (s : SysState) : Option SysState :=
  match s.agg.phase with
  | AggPhase.running => some s
  | AggPhase.exited => none

/-- Step of `Label.pubRecv` (publisher.go lines 62-90): the publisher
receive branch fires with ok = true; the reading is taken off the shared
channel (so it never reaches the aggregator) and the loop continues. -/
def stepPubRecv (s : SysState) : Option SysState :=
  match s.pub.phase with
  | PubPhase.running =>
    match s.ch.buf with
    | [] => none
    | _ :: rest =>
        some { s with ch := { s.ch with buf := rest },
                      pub := { s.pub with received := s.pub.received + 1 } }
  | PubPhase.exited => none

/-- Step of `Label.pubCancelExit` (publisher.go lines 56-60): the
ctx.Done branch of the publisher select; ready whenever the context is
cancelled. -/
def stepPubCancelExit (s : SysState) : Option SysState :=
  match s.pub.phase with
  | PubPhase.running =>
      if s.cancelled then some { s with pub := { s.pub with phase := PubPhase.exited } }
      else none
  | PubPhase.exited => none

/-- Step of `Label.pubCloseExit` (publisher.go lines 63-67): a receive on
a closed channel yields ok = false only once the buffer is drained. -/
def stepPubCloseExit (s : SysState) : Option SysState :=
  match s.pub.phase with
  | PubPhase.running =>
      if s.ch.closed then
        match s.ch.buf with
        | [] => some { s with pub := { s.pub with phase := PubPhase.exited } }
        | _ :: _ => none
      else none
  | PubPhase.exited => none

/-- Step of `Label.pubStatsTick` (publisher.go lines 92-98): the
statistics ticker branch only logs; no state change. -/
def stepPubStatsTick (s : SysState) : Option SysState :=
  match s.pub.phase with
  | PubPhase.running => some s
  | PubPhase.exited => none

/-- The step function of the system: one atomic action per label. -/
def step (s : SysState) : Label → Option SysState
  | Label.cancel => stepCancel s
  | Label.tick i => stepTick s i
  | Label.send i => stepSend s i
  | Label.observeCancel i => stepObserveCancel s i
  | Label.fault i => stepFault s i
  | Label.recoverCheck i => stepRecoverCheck s i
  | Label.recoverStop i => stepRecoverStop s i
  | Label.restartStart i => stepRestartStart s i
  | Label.wrapperExit i => stepWrapperExit s i
  | Label.closeCh => stepCloseCh s
  | Label.aggRecv => stepAggRecv s
  | Label.aggCancelExit => stepAggCancelExit s
  | Label.aggCloseExit => stepAggCloseExit s
  | Label.aggSummary => stepAggSummary s
  | Label.pubRecv => stepPubRecv s
  | Label.pubCancelExit => stepPubCancelExit s
  | Label.pubCloseExit => stepPubCloseExit s
  | Label.pubStatsTick => stepPubStatsTick s

/-- Execute one interleaving (a list of labels) from a state. -/
def run (s : SysState) : List Label → Option SysState
  | [] => some s
  | l :: ls =>
    match step s l with
    | some s1 => run s1 ls
    | none => none

/-- Initial state of one slot: NewSensor (sensor.go lines 31-47) with a new
Run goroutine at the top of its loop and the wrapper goroutine waiting.
The random seed time.Now().UnixNano() + id is abstracted to the id. -/
def initSlot (id : Nat) : Slot :=
  { id := id, phase := Phase.selecting, rng := id, sent := 0, restarts := 0,
    wrapperDone := false }

/-- Initial state of main.go with n sensors: nothing cancelled, channel
open and empty with capacity 1000 (main.go line 108), sensors 1..n
started, aggregator and publisher running with empty counts.  A run with
NATS disabled (main.go lines 72-77) is a schedule without publisher
labels. -/
def initState (n : Nat) : SysState :=
  { cancelled := false
  , ch := { buf := [], cap := 1000, closed := false }
  , slots := (List.range n).map (fun k => initSlot (k + 1))
  , agg := { phase := AggPhase.running, count := 0 }
  , pub := { phase := PubPhase.running, received := 0 } }

/-- Total number of readings successfully sent onto the channel by all
producers: the sum of the MessagesSent counters. -/
def totalSent (s : SysState) : Nat :=
  (s.slots.map Slot.sent).sum

/-- Count of one label in an interleaving. -/
def countL (a : Label) : List Label → Nat
  | [] => 0
  | b :: bs => (if b = a then 1 else 0) + countL a bs

/-! Helper lemmas about lists, indexed access and setting. -/

theorem get?_set_self {α : Type} (l : List α) :
    ∀ (i : Nat) (a b : α), l.get? i = some b → (l.set i a).get? i = some a := by
  induction l with
  | nil => intro i a b h; simp [List.get?] at h
  | cons x xs ih =>
    intro i a b h
    cases i with
    | zero => rfl
    | succ n => exact ih n a b h

theorem get?_set_other {α : Type} (l : List α) :
    ∀ (i j : Nat) (a : α), i ≠ j → (l.set i a).get? j = l.get? j := by
  induction l with
  | nil => intro i j a _; simp [List.set]
  | cons x xs ih =>
    intro i j a hij
    cases i with
    | zero =>
      cases j with
      | zero => exact absurd rfl hij
      | succ m => rfl
    | succ n =>
      cases j with
      | zero => rfl
      | succ m => exact ih n m a (fun hc => hij (by rw [hc]))

theorem sum_map_set {α : Type} (f : α → Nat) (l : List α) :
    ∀ (i : Nat) (a b : α), l.get? i = some b →
      ((l.set i a).map f).sum + f b = (l.map f).sum + f a := by
  induction l with
  | nil => intro i a b h; simp [List.get?] at h
  | cons x xs ih =>
    intro i a b h
    cases i with
    | zero =>
      have hb : x = b := by simpa [List.get?] using h
      subst hb
      have e0 : (x :: xs).set 0 a = a :: xs := rfl
      rw [e0]
      simp only [List.map_cons, List.sum_cons]
      omega
    | succ n =>
      have h2 := ih n a b h
      have e1 : (x :: xs).set (n + 1) a = x :: xs.set n a := rfl
      rw [e1]
      simp only [List.map_cons, List.sum_cons]
      omega

theorem all_eq_false_of_get? {α : Type} (p : α → Bool) (l : List α) :
    ∀ (i : Nat) (b : α), l.get? i = some b → p b = false → l.all p = false := by
  induction l with
  | nil => intro i b h _; simp [List.get?] at h
  | cons x xs ih =>
    intro i b h hb
    cases i with
    | zero =>
      have hb2 : x = b := by simpa [List.get?] using h
      subst hb2
      simp [List.all, hb]
    | succ n =>
      have h2 := ih n b h hb
      simp [List.all, h2]

/-! Inversion of the step function: `StepSpec s s1 l` enumerates, per
label, exactly the guards under which `step s l = some s1` and the shape
of `s1`. -/

/-- Characterization of one successful step, case by case. -/
inductive StepSpec (s s1 : SysState) : Label → Prop where
  | cancel :
      s.cancelled = false →
      s1 = { s with cancelled := true } →
      StepSpec s s1 Label.cancel
  | tick (i : Nat) (sl : Slot) :
      s.slots.get? i = some sl →
      sl.phase = Phase.selecting →
      s1 = { s with slots := s.slots.set i ({ sl with phase := Phase.sending ⟨sl.id, sl.rng⟩, rng := sl.rng + 1 }) } →
      StepSpec s s1 (Label.tick i)
  | sendClosed (i : Nat) (sl : Slot) (d : SensorData) :
      s.slots.get? i = some sl →
      sl.phase = Phase.sending d →
      s.ch.closed = true →
      s1 = { s with slots := s.slots.set i ({ sl with phase := Phase.panicked }) } →
      StepSpec s s1 (Label.send i)
  | sendOk (i : Nat) (sl : Slot) (d : SensorData) :
      s.slots.get? i = some sl →
      sl.phase = Phase.sending d →
      s.ch.closed = false →
      s.ch.buf.length < s.ch.cap →
      s1 = { s with ch := { s.ch with buf := s.ch.buf ++ [d] }, slots := s.slots.set i ({ sl with phase := Phase.selecting, sent := sl.sent + 1 }) } →
      StepSpec s s1 (Label.send i)
  | observeCancel (i : Nat) (sl : Slot) :
      s.slots.get? i = some sl →
      sl.phase = Phase.selecting →
      s.cancelled = true →
      s1 = { s with slots := s.slots.set i ({ sl with phase := Phase.doneRun }) } →
      StepSpec s s1 (Label.observeCancel i)
  | fault (i : Nat) (sl : Slot) :
      s.slots.get? i = some sl →
      (sl.phase = Phase.selecting ∨ ∃ d, sl.phase = Phase.sending d) →
      s1 = { s with slots := s.slots.set i ({ sl with phase := Phase.panicked }) } →
      StepSpec s s1 (Label.fault i)
  | recoverCheck (i : Nat) (sl : Slot) :
      s.slots.get? i = some sl →
      sl.phase = Phase.panicked →
      s.cancelled = false →
      s1 = { s with slots := s.slots.set i ({ sl with phase := Phase.restartPending }) } →
      StepSpec s s1 (Label.recoverCheck i)
  | recoverStop (i : Nat) (sl : Slot) :
      s.slots.get? i = some sl →
      sl.phase = Phase.panicked →
      s.cancelled = true →
      s1 = { s with slots := s.slots.set i ({ sl with phase := Phase.stopped }) } →
      StepSpec s s1 (Label.recoverStop i)
  | restartStart (i : Nat) (sl : Slot) :
      s.slots.get? i = some sl →
      sl.phase = Phase.restartPending →
      s1 = { s with slots := s.slots.set i ({ sl with phase := Phase.selecting, restarts := sl.restarts + 1 }) } →
      StepSpec s s1 (Label.restartStart i)
  | wrapperExit (i : Nat) (sl : Slot) :
      s.slots.get? i = some sl →
      s.cancelled = true →
      sl.wrapperDone = false →
      s1 = { s with slots := s.slots.set i ({ sl with wrapperDone := true }) } →
      StepSpec s s1 (Label.wrapperExit i)
  | closeCh :
      s.ch.closed = false →
      s.slots.all (fun sl => sl.wrapperDone) = true →
      s1 = { s with ch := { s.ch with closed := true } } →
      StepSpec s s1 Label.closeCh
  | aggRecv (d : SensorData) (rest : List SensorData) :
      s.agg.phase = AggPhase.running →
      s.ch.buf = d :: rest →
      s1 = { s with ch := { s.ch with buf := rest }, agg := { s.agg with count := s.agg.count + 1 } } →
      StepSpec s s1 Label.aggRecv
  | aggCancelExit :
      s.agg.phase = AggPhase.running →
      s.cancelled = true →
      s1 = { s with agg := { s.agg with phase := AggPhase.exited } } →
      StepSpec s s1 Label.aggCancelExit
  | aggCloseExit :
      s.agg.phase = AggPhase.running →
      s.ch.closed = true →
      s.ch.buf = [] →
      s1 = { s with agg := { s.agg with phase := AggPhase.exited } } →
      StepSpec s s1 Label.aggCloseExit
  | aggSummary :
      s.agg.phase = AggPhase.running →
      s1 = s →
      StepSpec s s1 Label.aggSummary
  | pubRecv (d : SensorData) (rest : List SensorData) :
      s.pub.phase = PubPhase.running →
      s.ch.buf = d :: rest →
      s1 = { s with ch := { s.ch with buf := rest }, pub := { s.pub with received := s.pub.received + 1 } } →
      StepSpec s s1 Label.pubRecv
  | pubCancelExit :
      s.pub.phase = PubPhase.running →
      s.cancelled = true →
      s1 = { s with pub := { s.pub with phase := PubPhase.exited } } →
      StepSpec s s1 Label.pubCancelExit
  | pubCloseExit :
      s.pub.phase = PubPhase.running →
      s.ch.closed = true →
      s.ch.buf = [] →
      s1 = { s with pub := { s.pub with phase := PubPhase.exited } } →
      StepSpec s s1 Label.pubCloseExit
  | pubStatsTick :
      s.pub.phase = PubPhase.running →
      s1 = s →
      StepSpec s s1 Label.pubStatsTick

/-- Every successful step satisfies its characterization. -/
theorem step_inv {s s1 : SysState} {l : Label} (h : step s l = some s1) :
    StepSpec s s1 l := by
  cases l with
  | cancel =>
    simp only [step, stepCancel] at h
    split at h
    next => exact Option.noConfusion h
    next hc =>
      injection h with h1
      exact StepSpec.cancel (by simpa using hc) h1.symm
  | tick i =>
    simp only [step, stepTick] at h
    split at h
    next sl hg =>
      split at h
      next hp =>
        injection h with h1
        exact StepSpec.tick i sl hg hp h1.symm
      next => exact Option.noConfusion h
    next => exact Option.noConfusion h
  | send i =>
    simp only [step, stepSend] at h
    split at h
    next sl hg =>
      split at h
      next d hp =>
        split at h
        next hcl =>
          injection h with h1
          exact StepSpec.sendClosed i sl d hg hp hcl h1.symm
        next hcl =>
          split at h
          next hlen =>
            injection h with h1
            exact StepSpec.sendOk i sl d hg hp (by simpa using hcl) hlen h1.symm
          next => exact Option.noConfusion h
      next => exact Option.noConfusion h
    next => exact Option.noConfusion h
  | observeCancel i =>
    simp only [step, stepObserveCancel] at h
    split at h
    next sl hg =>
      split at h
      next hp =>
        split at h
        next hc =>
          injection h with h1
          exact StepSpec.observeCancel i sl hg hp hc h1.symm
        next => exact Option.noConfusion h
      next => exact Option.noConfusion h
    next => exact Option.noConfusion h
  | fault i =>
    simp only [step, stepFault] at h
    split at h
    next sl hg =>
      split at h
      next hp =>
        injection h with h1
        exact StepSpec.fault i sl hg (Or.inl hp) h1.symm
      next d hp =>
        injection h with h1
        exact StepSpec.fault i sl hg (Or.inr ⟨d, hp⟩) h1.symm
      next => exact Option.noConfusion h
    next => exact Option.noConfusion h
  | recoverCheck i =>
    simp only [step, stepRecoverCheck] at h
    split at h
    next sl hg =>
      split at h
      next hp =>
        split at h
        next => exact Option.noConfusion h
        next hc =>
          injection h with h1
          exact StepSpec.recoverCheck i sl hg hp (by simpa using hc) h1.symm
      next => exact Option.noConfusion h
    next => exact Option.noConfusion h
  | recoverStop i =>
    simp only [step, stepRecoverStop] at h
    split at h
    next sl hg =>
      split at h
      next hp =>
        split at h
        next hc =>
          injection h with h1
          exact StepSpec.recoverStop i sl hg hp hc h1.symm
        next => exact Option.noConfusion h
      next => exact Option.noConfusion h
    next => exact Option.noConfusion h
  | restartStart i =>
    simp only [step, stepRestartStart] at h
    split at h
    next sl hg =>
      split at h
      next hp =>
        injection h with h1
        exact StepSpec.restartStart i sl hg hp h1.symm
      next => exact Option.noConfusion h
    next => exact Option.noConfusion h
  | wrapperExit i =>
    simp only [step, stepWrapperExit] at h
    split at h
    next sl hg =>
      split at h
      next hc =>
        split at h
        next => exact Option.noConfusion h
        next hw =>
          injection h with h1
          exact StepSpec.wrapperExit i sl hg hc (by simpa using hw) h1.symm
      next => exact Option.noConfusion h
    next => exact Option.noConfusion h
  | closeCh =>
    simp only [step, stepCloseCh] at h
    split at h
    next => exact Option.noConfusion h
    next hcl =>
      split at h
      next hall =>
        injection h with h1
        exact StepSpec.closeCh (by simpa using hcl) hall h1.symm
      next => exact Option.noConfusion h
  | aggRecv =>
    simp only [step, stepAggRecv] at h
    split at h
    next hph =>
      split at h
      next => exact Option.noConfusion h
      next d rest hb =>
        injection h with h1
        exact StepSpec.aggRecv d rest hph hb h1.symm
    next => exact Option.noConfusion h
  | aggCancelExit =>
    simp only [step, stepAggCancelExit] at h
    split at h
    next hph =>
      split at h
      next hc =>
        injection h with h1
        exact StepSpec.aggCancelExit hph hc h1.symm
      next => exact Option.noConfusion h
    next => exact Option.noConfusion h
  | aggCloseExit =>
    simp only [step, stepAggCloseExit] at h
    split at h
    next hph =>
      split at h
      next hcl =>
        split at h
        next hb =>
          injection h with h1
          exact StepSpec.aggCloseExit hph hcl hb h1.symm
        next => exact Option.noConfusion h
      next => exact Option.noConfusion h
    next => exact Option.noConfusion h
  | aggSummary =>
    simp only [step, stepAggSummary] at h
    split at h
    next hph =>
      injection h with h1
      exact StepSpec.aggSummary hph h1.symm
    next => exact Option.noConfusion h
  | pubRecv =>
    simp only [step, stepPubRecv] at h
    split at h
    next hph =>
      split at h
      next => exact Option.noConfusion h
      next d rest hb =>
        injection h with h1
        exact StepSpec.pubRecv d rest hph hb h1.symm
    next => exact Option.noConfusion h
  | pubCancelExit =>
    simp only [step, stepPubCancelExit] at h
    split at h
    next hph =>
      split at h
      next hc =>
        injection h with h1
        exact StepSpec.pubCancelExit hph hc h1.symm
      next => exact Option.noConfusion h
    next => exact Option.noConfusion h
  | pubCloseExit =>
    simp only [step, stepPubCloseExit] at h
    split at h
    next hph =>
      split at h
      next hcl =>
        split at h
        next hb =>
          injection h with h1
          exact StepSpec.pubCloseExit hph hcl hb h1.symm
        next => exact Option.noConfusion h
      next => exact Option.noConfusion h
    next => exact Option.noConfusion h
  | pubStatsTick =>
    simp only [step, stepPubStatsTick] at h
    split at h
    next hph =>
      injection h with h1
      exact StepSpec.pubStatsTick hph h1.symm
    next => exact Option.noConfusion h

/-- Unfolding of `run` over a cons. -/
theorem run_cons {s s2 : SysState} {l : Label} {ls : List Label} :
    run s (l :: ls) = some s2 ↔ ∃ s1, step s l = some s1 ∧ run s1 ls = some s2 := by
  simp only [run]
  cases hs : step s l with
  | none => simp
  | some s1 => simp

/-- Decomposition of `run` over an append. -/
theorem run_append {s s2 : SysState} {a b : List Label}
    (h : run s (a ++ b) = some s2) :
    ∃ s1, run s a = some s1 ∧ run s1 b = some s2 := by
  induction a generalizing s with
  | nil => exact ⟨s, rfl, h⟩
  | cons l a ih =>
    rw [List.cons_append, run_cons] at h
    obtain ⟨t, hstep, hrest⟩ := h
    obtain ⟨s1, h1, h2⟩ := ih hrest
    exact ⟨s1, run_cons.mpr ⟨t, hstep, h1⟩, h2⟩

/-- The cancellation flag is one-way: once set, every step keeps it set. -/
theorem step_cancelled_mono {s s1 : SysState} {l : Label}
    (h : step s l = some s1) (hc : s.cancelled = true) : s1.cancelled = true := by
  cases step_inv h with
  | cancel hc0 h1 => exact absurd hc (by simp [hc0])
  | tick i sl hg hp h1 => rw [h1]; exact hc
  | sendClosed i sl d hg hp hcl h1 => rw [h1]; exact hc
  | sendOk i sl d hg hp hcl hlen h1 => rw [h1]; exact hc
  | observeCancel i sl hg hp hcn h1 => rw [h1]; exact hc
  | fault i sl hg hp h1 => rw [h1]; exact hc
  | recoverCheck i sl hg hp hcn h1 => rw [h1]; exact hc
  | recoverStop i sl hg hp hcn h1 => rw [h1]; exact hc
  | restartStart i sl hg hp h1 => rw [h1]; exact hc
  | wrapperExit i sl hg hcn hw h1 => rw [h1]; exact hc
  | closeCh hcl hall h1 => rw [h1]; exact hc
  | aggRecv d rest hph hb h1 => rw [h1]; exact hc
  | aggCancelExit hph hcn h1 => rw [h1]; exact hc
  | aggCloseExit hph hcl hb h1 => rw [h1]; exact hc
  | aggSummary hph h1 => rw [h1]; exact hc
  | pubRecv d rest hph hb h1 => rw [h1]; exact hc
  | pubCancelExit hph hcn h1 => rw [h1]; exact hc
  | pubCloseExit hph hcl hb h1 => rw [h1]; exact hc
  | pubStatsTick hph h1 => rw [h1]; exact hc

/-- View of one step from the standpoint of slot i: either the slot is
untouched, or the step is one of the ten slot-i transitions, with its
guard and its effect on the slot. -/
theorem slot_i_cases {s s1 : SysState} {l : Label}
    (h : step s l = some s1) (i : Nat) (sl0 : Slot)
    (h0 : s.slots.get? i = some sl0) :
    (s1.slots.get? i = some sl0)
  ∨ (l = Label.tick i ∧ sl0.phase = Phase.selecting ∧ s1.slots.get? i = some ({ sl0 with phase := Phase.sending ⟨sl0.id, sl0.rng⟩, rng := sl0.rng + 1 }))
  ∨ (l = Label.send i ∧ (∃ d, sl0.phase = Phase.sending d) ∧ s.ch.closed = true ∧ s1.slots.get? i = some ({ sl0 with phase := Phase.panicked }))
  ∨ (l = Label.send i ∧ (∃ d, sl0.phase = Phase.sending d) ∧ s.ch.closed = false ∧ s1.slots.get? i = some ({ sl0 with phase := Phase.selecting, sent := sl0.sent + 1 }))
  ∨ (l = Label.observeCancel i ∧ sl0.phase = Phase.selecting ∧ s.cancelled = true ∧ s1.slots.get? i = some ({ sl0 with phase := Phase.doneRun }))
  ∨ (l = Label.fault i ∧ (sl0.phase = Phase.selecting ∨ ∃ d, sl0.phase = Phase.sending d) ∧ s1.slots.get? i = some ({ sl0 with phase := Phase.panicked }))
  ∨ (l = Label.recoverCheck i ∧ sl0.phase = Phase.panicked ∧ s.cancelled = false ∧ s1.slots.get? i = some ({ sl0 with phase := Phase.restartPending }))
  ∨ (l = Label.recoverStop i ∧ sl0.phase = Phase.panicked ∧ s.cancelled = true ∧ s1.slots.get? i = some ({ sl0 with phase := Phase.stopped }))
  ∨ (l = Label.restartStart i ∧ sl0.phase = Phase.restartPending ∧ s1.slots.get? i = some ({ sl0 with phase := Phase.selecting, restarts := sl0.restarts + 1 }))
  ∨ (l = Label.wrapperExit i ∧ s.cancelled = true ∧ sl0.wrapperDone = false ∧ s1.slots.get? i = some ({ sl0 with wrapperDone := true })) := by
  cases step_inv h with
  | cancel hc0 h1 => exact Or.inl (by rw [h1]; exact h0)
  | closeCh hcl hall h1 => exact Or.inl (by rw [h1]; exact h0)
  | aggRecv d rest hph hb h1 => exact Or.inl (by rw [h1]; exact h0)
  | aggCancelExit hph hcn h1 => exact Or.inl (by rw [h1]; exact h0)
  | aggCloseExit hph hcl hb h1 => exact Or.inl (by rw [h1]; exact h0)
  | aggSummary hph h1 => exact Or.inl (by rw [h1]; exact h0)
  | pubRecv d rest hph hb h1 => exact Or.inl (by rw [h1]; exact h0)
  | pubCancelExit hph hcn h1 => exact Or.inl (by rw [h1]; exact h0)
  | pubCloseExit hph hcl hb h1 => exact Or.inl (by rw [h1]; exact h0)
  | pubStatsTick hph h1 => exact Or.inl (by rw [h1]; exact h0)
  | tick j sl hg hp h1 =>
    by_cases hj : j = i
    · subst hj
      rw [h0] at hg; injection hg with hg; subst hg
      refine Or.inr (Or.inl ⟨rfl, hp, ?_⟩)
      rw [h1]
      exact get?_set_self _ j _ _ h0
    · exact Or.inl (by rw [h1]; rw [get?_set_other _ j i _ hj]; exact h0)
  | sendClosed j sl d hg hp hcl h1 =>
    by_cases hj : j = i
    · subst hj
      rw [h0] at hg; injection hg with hg; subst hg
      refine Or.inr (Or.inr (Or.inl ⟨rfl, ⟨d, hp⟩, hcl, ?_⟩))
      rw [h1]
      exact get?_set_self _ j _ _ h0
    · exact Or.inl (by rw [h1]; rw [get?_set_other _ j i _ hj]; exact h0)
  | sendOk j sl d hg hp hcl hlen h1 =>
    by_cases hj : j = i
    · subst hj
      rw [h0] at hg; injection hg with hg; subst hg
      refine Or.inr (Or.inr (Or.inr (Or.inl ⟨rfl, ⟨d, hp⟩, hcl, ?_⟩)))
      rw [h1]
      exact get?_set_self _ j _ _ h0
    · exact Or.inl (by rw [h1]; rw [get?_set_other _ j i _ hj]; exact h0)
  | observeCancel j sl hg hp hcn h1 =>
    by_cases hj : j = i
    · subst hj
      rw [h0] at hg; injection hg with hg; subst hg
      refine Or.inr (Or.inr (Or.inr (Or.inr (Or.inl ⟨rfl, hp, hcn, ?_⟩))))
      rw [h1]
      exact get?_set_self _ j _ _ h0
    · exact Or.inl (by rw [h1]; rw [get?_set_other _ j i _ hj]; exact h0)
  | fault j sl hg hp h1 =>
    by_cases hj : j = i
    · subst hj
      rw [h0] at hg; injection hg with hg; subst hg
      refine Or.inr (Or.inr (Or.inr (Or.inr (Or.inr (Or.inl ⟨rfl, hp, ?_⟩)))))
      rw [h1]
      exact get?_set_self _ j _ _ h0
    · exact Or.inl (by rw [h1]; rw [get?_set_other _ j i _ hj]; exact h0)
  | recoverCheck j sl hg hp hcn h1 =>
    by_cases hj : j = i
    · subst hj
      rw [h0] at hg; injection hg with hg; subst hg
      refine Or.inr (Or.inr (Or.inr (Or.inr (Or.inr (Or.inr (Or.inl ⟨rfl, hp, hcn, ?_⟩))))))
      rw [h1]
      exact get?_set_self _ j _ _ h0
    · exact Or.inl (by rw [h1]; rw [get?_set_other _ j i _ hj]; exact h0)
  | recoverStop j sl hg hp hcn h1 =>
    by_cases hj : j = i
    · subst hj
      rw [h0] at hg; injection hg with hg; subst hg
      refine Or.inr (Or.inr (Or.inr (Or.inr (Or.inr (Or.inr (Or.inr (Or.inl ⟨rfl, hp, hcn, ?_⟩)))))))
      rw [h1]
      exact get?_set_self _ j _ _ h0
    · exact Or.inl (by rw [h1]; rw [get?_set_other _ j i _ hj]; exact h0)
  | restartStart j sl hg hp h1 =>
    by_cases hj : j = i
    · subst hj
      rw [h0] at hg; injection hg with hg; subst hg
      refine Or.inr (Or.inr (Or.inr (Or.inr (Or.inr (Or.inr (Or.inr (Or.inr (Or.inl ⟨rfl, hp, ?_⟩))))))))
      rw [h1]
      exact get?_set_self _ j _ _ h0
    · exact Or.inl (by rw [h1]; rw [get?_set_other _ j i _ hj]; exact h0)
  | wrapperExit j sl hg hcn hw h1 =>
    by_cases hj : j = i
    · subst hj
      rw [h0] at hg; injection hg with hg; subst hg
      refine Or.inr (Or.inr (Or.inr (Or.inr (Or.inr (Or.inr (Or.inr (Or.inr (Or.inr ⟨rfl, hcn, hw, ?_⟩))))))))
      rw [h1]
      exact get?_set_self _ j _ _ h0
    · exact Or.inl (by rw [h1]; rw [get?_set_other _ j i _ hj]; exact h0)

/-- Helper: effect of replacing slot i on the total sent counter. -/
theorem totalSent_set {s : SysState} {i : Nat} {sl : Slot} (sl2 : Slot)
    (hg : s.slots.get? i = some sl) :
    ((s.slots.set i sl2).map Slot.sent).sum + sl.sent = totalSent s + sl2.sent :=
  sum_map_set Slot.sent s.slots i sl2 sl hg

/-- One step preserves the conservation equation: readings counted by
the aggregator, plus readings consumed by the publisher, plus readings
still buffered, equal readings sent. -/
theorem step_conservation {s s1 : SysState} {l : Label}
    (h : step s l = some s1)
    (hinv : s.agg.count + s.pub.received + s.ch.buf.length = totalSent s) :
    s1.agg.count + s1.pub.received + s1.ch.buf.length = totalSent s1 := by
  cases step_inv h with
  | cancel hc0 h1 => rw [h1]; exact hinv
  | closeCh hcl hall h1 => rw [h1]; exact hinv
  | aggCancelExit hph hcn h1 => rw [h1]; exact hinv
  | aggCloseExit hph hcl hb h1 => rw [h1]; exact hinv
  | aggSummary hph h1 => rw [h1]; exact hinv
  | pubCancelExit hph hcn h1 => rw [h1]; exact hinv
  | pubCloseExit hph hcl hb h1 => rw [h1]; exact hinv
  | pubStatsTick hph h1 => rw [h1]; exact hinv
  | pubRecv d rest hph hb h1 =>
    rw [h1]
    dsimp only [totalSent]
    dsimp only [totalSent] at hinv
    rw [hb] at hinv
    simp only [List.length_cons] at hinv
    omega
  | aggRecv d rest hph hb h1 =>
    rw [h1]
    dsimp only [totalSent]
    dsimp only [totalSent] at hinv
    rw [hb] at hinv
    simp only [List.length_cons] at hinv
    omega
  | tick i sl hg hp h1 =>
    rw [h1]
    dsimp only [totalSent]
    have hs := totalSent_set ({ sl with phase := Phase.sending ⟨sl.id, sl.rng⟩, rng := sl.rng + 1 }) hg
    dsimp only at hs
    omega
  | sendClosed i sl d hg hp hcl h1 =>
    rw [h1]
    dsimp only [totalSent]
    have hs := totalSent_set ({ sl with phase := Phase.panicked }) hg
    dsimp only at hs
    omega
  | sendOk i sl d hg hp hcl hlen h1 =>
    rw [h1]
    dsimp only [totalSent]
    have hs := totalSent_set ({ sl with phase := Phase.selecting, sent := sl.sent + 1 }) hg
    dsimp only at hs
    simp only [List.length_append, List.length_cons, List.length_nil]
    omega
  | observeCancel i sl hg hp hcn h1 =>
    rw [h1]
    dsimp only [totalSent]
    have hs := totalSent_set ({ sl with phase := Phase.doneRun }) hg
    dsimp only at hs
    omega
  | fault i sl hg hp h1 =>
    rw [h1]
    dsimp only [totalSent]
    have hs := totalSent_set ({ sl with phase := Phase.panicked }) hg
    dsimp only at hs
    omega
  | recoverCheck i sl hg hp hcn h1 =>
    rw [h1]
    dsimp only [totalSent]
    have hs := totalSent_set ({ sl with phase := Phase.restartPending }) hg
    dsimp only at hs
    omega
  | recoverStop i sl hg hp hcn h1 =>
    rw [h1]
    dsimp only [totalSent]
    have hs := totalSent_set ({ sl with phase := Phase.stopped }) hg
    dsimp only at hs
    omega
  | restartStart i sl hg hp h1 =>
    rw [h1]
    dsimp only [totalSent]
    have hs := totalSent_set ({ sl with phase := Phase.selecting, restarts := sl.restarts + 1 }) hg
    dsimp only at hs
    omega
  | wrapperExit i sl hg hcn hw h1 =>
    rw [h1]
    dsimp only [totalSent]
    have hs := totalSent_set ({ sl with wrapperDone := true }) hg
    dsimp only at hs
    omega

/-- The total sent counter of the initial state is zero. -/
theorem totalSent_initState (n : Nat) : totalSent (initState n) = 0 := by
  dsimp only [totalSent, initState]
  rw [List.map_map]
  apply List.sum_eq_zero
  intro x hx
  rw [List.mem_map] at hx
  obtain ⟨k, _, hk⟩ := hx
  exact hk.symm

/-- Decomposition of an aggregator exit: in every execution in which the
aggregator has returned, its return happened at a step that was either the
ctx.Done branch (with the context cancelled) or the closed-and-drained
receive. -/
theorem agg_exit_decomp :
    ∀ (ls : List Label) (s0 s : SysState), run s0 ls = some s →
      s0.agg.phase = AggPhase.running → s.agg.phase = AggPhase.exited →
      ∃ pre l post u v, ls = pre ++ l :: post ∧ run s0 pre = some u ∧ step u l = some v ∧
        run v post = some s ∧ u.agg.phase = AggPhase.running ∧
        ((l = Label.aggCancelExit ∧ u.cancelled = true) ∨
         (l = Label.aggCloseExit ∧ u.ch.closed = true ∧ u.ch.buf = [])) := by
  intro ls
  induction ls with
  | nil =>
    intro s0 s h hr he
    simp only [run] at h
    injection h with h1
    rw [← h1, hr] at he
    exact absurd he (by simp)
  | cons l ls ih =>
    intro s0 s h hr he
    obtain ⟨s1, hstep, hrun⟩ := run_cons.mp h
    by_cases hph : s1.agg.phase = AggPhase.running
    · obtain ⟨pre, l2, post, u, v, hls, hpre, hst, hpost, hu, hdisj⟩ := ih s1 s hrun hph he
      exact ⟨l :: pre, l2, post, u, v, by rw [hls, List.cons_append],
        run_cons.mpr ⟨s1, hstep, hpre⟩, hst, hpost, hu, hdisj⟩
    · refine ⟨[], l, ls, s0, s1, rfl, rfl, hstep, hrun, hr, ?_⟩
      cases step_inv hstep with
      | aggCancelExit hph0 hcn h1 => exact Or.inl ⟨rfl, hcn⟩
      | aggCloseExit hph0 hcl hb h1 => exact Or.inr ⟨rfl, hcl, hb⟩
      | cancel hc0 h1 => exact absurd (by rw [h1]; exact hr) hph
      | tick i sl hg hp h1 => exact absurd (by rw [h1]; exact hr) hph
      | sendClosed i sl d hg hp hcl h1 => exact absurd (by rw [h1]; exact hr) hph
      | sendOk i sl d hg hp hcl hlen h1 => exact absurd (by rw [h1]; exact hr) hph
      | observeCancel i sl hg hp hcn h1 => exact absurd (by rw [h1]; exact hr) hph
      | fault i sl hg hp h1 => exact absurd (by rw [h1]; exact hr) hph
      | recoverCheck i sl hg hp hcn h1 => exact absurd (by rw [h1]; exact hr) hph
      | recoverStop i sl hg hp hcn h1 => exact absurd (by rw [h1]; exact hr) hph
      | restartStart i sl hg hp h1 => exact absurd (by rw [h1]; exact hr) hph
      | wrapperExit i sl hg hcn hw h1 => exact absurd (by rw [h1]; exact hr) hph
      | closeCh hcl hall h1 => exact absurd (by rw [h1]; exact hr) hph
      | aggRecv d rest hph0 hb h1 => exact absurd (by rw [h1]; exact hr) hph
      | aggSummary hph0 h1 => exact absurd (by rw [h1]; exact hr) hph
      | pubRecv d rest hph0 hb h1 => exact absurd (by rw [h1]; exact hr) hph
      | pubCancelExit hph0 hcn h1 => exact absurd (by rw [h1]; exact hr) hph
      | pubCloseExit hph0 hcl hb h1 => exact absurd (by rw [h1]; exact hr) hph
      | pubStatsTick hph0 h1 => exact absurd (by rw [h1]; exact hr) hph

/-- C1: the claim says the shared data channel is closed only after every
producer has durably stopped writing, so that no send ever occurs after
the close call.  The code violates this: the wait group that gates
`close(dataCh)` counts the wrapper goroutines of main.go lines 162-170,
which return as soon as ctx.Done fires without joining the Run goroutine
of their sensor (the TODO at main.go line 160 records exactly this gap).
This theorem evaluates the embedded program on the failing schedule: the
sensor of slot 0 commits to its ticker branch (the reading is built and
the send statement is pending), the context is cancelled, the wrapper
exits, main closes the channel — and then the pending send executes
against the closed channel and panics, i.e. a send occurs strictly after
the close. -/
theorem C1_send_after_close_execution :
    ((run (initState 1) [Label.tick 0, Label.cancel, Label.wrapperExit 0, Label.closeCh]).map
        (fun s => (s.ch.closed, s.slots.map Slot.phase)) =
      some (true, [Phase.sending ⟨1, 1⟩]))
    ∧ ((run (initState 1) [Label.tick 0, Label.cancel, Label.wrapperExit 0, Label.closeCh, Label.send 0]).map
        (fun s => (s.ch.closed, s.slots.map Slot.phase)) =
      some (true, [Phase.panicked])) :=
  ⟨rfl, rfl⟩

/-- C2 counterexample: the claim says Aggregator.Run returns only after
the data channel reports closed-and-empty.  Here is a complete execution
in which the aggregator has returned (phase exited) while one reading is
still buffered and the channel is not even closed: the select of
part_002 line 48 takes the ctx.Done branch as soon as the context is
cancelled, abandoning the buffered reading. -/
theorem C2_counterexample :
    (run (initState 1) [Label.tick 0, Label.send 0, Label.cancel, Label.aggCancelExit]).map
      (fun s => (s.agg.phase, s.ch.buf.length, s.ch.closed)) =
    some (AggPhase.exited, 1, false) :=
  rfl

/-- C2 (amended): Aggregator.Run returns exactly when its select takes the
ctx.Done branch (which requires the context to be cancelled, and may leave
buffered readings undrained) or when the receive reports
closed-and-empty — whichever happens first; it has no other exit path. -/
theorem C2_aggregator_exit_condition (n : Nat) (ls : List Label) (s : SysState)
    (h : run (initState n) ls = some s) (he : s.agg.phase = AggPhase.exited) :
    ∃ pre l post u v, ls = pre ++ l :: post ∧ run (initState n) pre = some u ∧
      step u l = some v ∧ run v post = some s ∧ u.agg.phase = AggPhase.running ∧
      ((l = Label.aggCancelExit ∧ u.cancelled = true) ∨
       (l = Label.aggCloseExit ∧ u.ch.closed = true ∧ u.ch.buf = [])) :=
  agg_exit_decomp ls (initState n) s h rfl he

/-- Witness for C2_aggregator_exit_condition at a concrete execution. -/
theorem C2_aggregator_exit_condition_witness :
    ∃ pre l post u v, ([Label.cancel, Label.aggCancelExit] : List Label) = pre ++ l :: post ∧
      run (initState 1) pre = some u ∧ step u l = some v ∧
      run v post = some { cancelled := true, ch := { buf := [], cap := 1000, closed := false }, slots := [{ id := 1, phase := Phase.selecting, rng := 1, sent := 0, restarts := 0, wrapperDone := false }], agg := { phase := AggPhase.exited, count := 0 }, pub := { phase := PubPhase.running, received := 0 } } ∧
      u.agg.phase = AggPhase.running ∧
      ((l = Label.aggCancelExit ∧ u.cancelled = true) ∨
       (l = Label.aggCloseExit ∧ u.ch.closed = true ∧ u.ch.buf = [])) :=
  C2_aggregator_exit_condition 1 [Label.cancel, Label.aggCancelExit]
    { cancelled := true, ch := { buf := [], cap := 1000, closed := false }, slots := [{ id := 1, phase := Phase.selecting, rng := 1, sent := 0, restarts := 0, wrapperDone := false }], agg := { phase := AggPhase.exited, count := 0 }, pub := { phase := PubPhase.running, received := 0 } }
    rfl rfl

/-- C3 counterexample: the claim says that with no producer faults and no
queue drops, the readings counted by the aggregator equal the readings
sent.  Two complete fault-free executions (no fault labels, and the queue
never drops by construction) refute it.  In the first, one reading is
sent, everything shuts down, and the aggregator counted zero: it exited
on cancellation with the reading still buffered.  In the second, with the
NATS publisher running on the same channel, the publisher consumes the
only reading, so the aggregator again counts zero while one reading was
sent and none remains buffered. -/
theorem C3_counterexample :
    ((run (initState 1) [Label.tick 0, Label.send 0, Label.cancel, Label.aggCancelExit,
        Label.observeCancel 0, Label.wrapperExit 0, Label.closeCh]).map
      (fun s => (s.agg.count, totalSent s, s.agg.phase, s.slots.map Slot.phase)) =
    some (0, 1, AggPhase.exited, [Phase.doneRun]))
    ∧ ((run (initState 1) [Label.tick 0, Label.send 0, Label.pubRecv, Label.cancel,
        Label.aggCancelExit, Label.pubCancelExit, Label.observeCancel 0,
        Label.wrapperExit 0, Label.closeCh]).map
      (fun s => (s.agg.count, s.pub.received, s.ch.buf.length, totalSent s, s.agg.phase, s.pub.phase)) =
    some (0, 1, 0, 1, AggPhase.exited, PubPhase.exited)) :=
  ⟨rfl, rfl⟩

/-- C3 (amended): in every execution the readings counted by the
aggregator, plus the readings consumed by the NATS publisher (which
receives from the same shared channel, main.go lines 123 and 132), plus
the readings still buffered in the channel, equal the readings
successfully sent by all producers.  No reading is ever lost by the
queue itself; the count of the aggregator alone equals the sent total
only when the publisher consumed nothing and the channel has been
drained. -/
theorem C3_received_plus_buffered_eq_sent (n : Nat) (ls : List Label) (s : SysState)
    (h : run (initState n) ls = some s) :
    s.agg.count + s.pub.received + s.ch.buf.length = totalSent s := by
  suffices haux : ∀ (ms : List Label) (s0 t : SysState), run s0 ms = some t →
      s0.agg.count + s0.pub.received + s0.ch.buf.length = totalSent s0 →
      t.agg.count + t.pub.received + t.ch.buf.length = totalSent t by
    exact haux ls (initState n) s h (by rw [totalSent_initState]; rfl)
  intro ms
  induction ms with
  | nil =>
    intro s0 t h0 hinv
    simp only [run] at h0
    injection h0 with h1
    rw [← h1]
    exact hinv
  | cons l ms ih =>
    intro s0 t h0 hinv
    obtain ⟨s1, hstep, hrun⟩ := run_cons.mp h0
    exact ih s1 t hrun (step_conservation hstep hinv)

/-- Witness for C3_received_plus_buffered_eq_sent at a concrete
execution in which the publisher consumed the only sent reading. -/
theorem C3_received_plus_buffered_eq_sent_witness :
    ({ cancelled := false, ch := { buf := [], cap := 1000, closed := false }, slots := [{ id := 1, phase := Phase.selecting, rng := 2, sent := 1, restarts := 0, wrapperDone := false }], agg := { phase := AggPhase.running, count := 0 }, pub := { phase := PubPhase.running, received := 1 } } : SysState).agg.count
      + ({ cancelled := false, ch := { buf := [], cap := 1000, closed := false }, slots := [{ id := 1, phase := Phase.selecting, rng := 2, sent := 1, restarts := 0, wrapperDone := false }], agg := { phase := AggPhase.running, count := 0 }, pub := { phase := PubPhase.running, received := 1 } } : SysState).pub.received
      + ({ cancelled := false, ch := { buf := [], cap := 1000, closed := false }, slots := [{ id := 1, phase := Phase.selecting, rng := 2, sent := 1, restarts := 0, wrapperDone := false }], agg := { phase := AggPhase.running, count := 0 }, pub := { phase := PubPhase.running, received := 1 } } : SysState).ch.buf.length
      = totalSent { cancelled := false, ch := { buf := [], cap := 1000, closed := false }, slots := [{ id := 1, phase := Phase.selecting, rng := 2, sent := 1, restarts := 0, wrapperDone := false }], agg := { phase := AggPhase.running, count := 0 }, pub := { phase := PubPhase.running, received := 1 } } :=
  C3_received_plus_buffered_eq_sent 1
    [Label.tick 0, Label.send 0, Label.pubRecv]
    { cancelled := false, ch := { buf := [], cap := 1000, closed := false }, slots := [{ id := 1, phase := Phase.selecting, rng := 2, sent := 1, restarts := 0, wrapperDone := false }], agg := { phase := AggPhase.running, count := 0 }, pub := { phase := PubPhase.running, received := 1 } }
    rfl

/-- C5 counterexample: the claim says that once the cancellation signal is
set, no producer emits a further reading.  Here the first action sets the
cancellation flag, and the subsequent execution still emits a reading
(the select of sensor.go line 63 may commit to the ticker branch even
when ctx.Done is ready, and a pending send completes unconditionally):
the total sent counter rises from 0 to 1 while cancelled. -/
theorem C5_counterexample :
    ((run (initState 1) [Label.cancel]).map (fun s => (s.cancelled, totalSent s)) =
      some (true, 0))
    ∧ ((run (initState 1) [Label.cancel, Label.tick 0, Label.send 0]).map
        (fun s => (s.cancelled, totalSent s)) = some (true, 1)) :=
  ⟨rfl, rfl⟩

/-- C5 (amended): after a sensor observes cancellation — its select takes
the ctx.Done branch and Run returns — that slot emits nothing further:
its phase stays doneRun and its sent counter is frozen for the rest of
the execution.  (Before the slot observes cancellation, sends may still
complete after the signal is set, as C5_counterexample shows.) -/
theorem C5_no_emission_after_observing_cancel :
    ∀ (ls : List Label) (s0 s : SysState) (i : Nat) (sl0 : Slot),
      s0.slots.get? i = some sl0 → sl0.phase = Phase.doneRun → run s0 ls = some s →
      ∃ sl, s.slots.get? i = some sl ∧ sl.phase = Phase.doneRun ∧ sl.sent = sl0.sent := by
  intro ls
  induction ls with
  | nil =>
    intro s0 s i sl0 h0 hph h
    simp only [run] at h
    injection h with h1
    exact ⟨sl0, by rw [← h1]; exact h0, hph, rfl⟩
  | cons l ls ih =>
    intro s0 s i sl0 h0 hph h
    obtain ⟨s1, hstep, hrun⟩ := run_cons.mp h
    rcases slot_i_cases hstep i sl0 h0 with hsame
      | ⟨_, hp, _⟩
      | ⟨_, ⟨d, hp⟩, _, _⟩
      | ⟨_, ⟨d, hp⟩, _, _⟩
      | ⟨_, hp, _, _⟩
      | ⟨_, hp, _⟩
      | ⟨_, hp, _, _⟩
      | ⟨_, hp, _, _⟩
      | ⟨_, hp, _⟩
      | ⟨_, _, _, hget⟩
    · exact ih s1 s i sl0 hsame hph hrun
    · rw [hph] at hp; exact Phase.noConfusion hp
    · rw [hph] at hp; exact Phase.noConfusion hp
    · rw [hph] at hp; exact Phase.noConfusion hp
    · rw [hph] at hp; exact Phase.noConfusion hp
    · rcases hp with hp | ⟨d, hp⟩
      · rw [hph] at hp; exact Phase.noConfusion hp
      · rw [hph] at hp; exact Phase.noConfusion hp
    · rw [hph] at hp; exact Phase.noConfusion hp
    · rw [hph] at hp; exact Phase.noConfusion hp
    · rw [hph] at hp; exact Phase.noConfusion hp
    · exact ih s1 s i ({ sl0 with wrapperDone := true }) hget hph hrun

/-- Witness for C5_no_emission_after_observing_cancel at a concrete
execution: slot 0 has observed cancellation; the remaining schedule
(wrapper exit, channel close, aggregator drain exit) leaves its phase and
sent counter untouched. -/
theorem C5_no_emission_after_observing_cancel_witness :
    ∃ sl, ({ cancelled := true, ch := { buf := [], cap := 1000, closed := true }, slots := [{ id := 1, phase := Phase.doneRun, rng := 1, sent := 0, restarts := 0, wrapperDone := true }], agg := { phase := AggPhase.exited, count := 0 }, pub := { phase := PubPhase.running, received := 0 } } : SysState).slots.get? 0 = some sl ∧
      sl.phase = Phase.doneRun ∧
      sl.sent = ({ id := 1, phase := Phase.doneRun, rng := 1, sent := 0, restarts := 0, wrapperDone := false } : Slot).sent :=
  C5_no_emission_after_observing_cancel
    [Label.wrapperExit 0, Label.closeCh, Label.aggCloseExit]
    { cancelled := true, ch := { buf := [], cap := 1000, closed := false }, slots := [{ id := 1, phase := Phase.doneRun, rng := 1, sent := 0, restarts := 0, wrapperDone := false }], agg := { phase := AggPhase.running, count := 0 }, pub := { phase := PubPhase.running, received := 0 } }
    { cancelled := true, ch := { buf := [], cap := 1000, closed := true }, slots := [{ id := 1, phase := Phase.doneRun, rng := 1, sent := 0, restarts := 0, wrapperDone := true }], agg := { phase := AggPhase.exited, count := 0 }, pub := { phase := PubPhase.running, received := 0 } }
    0 { id := 1, phase := Phase.doneRun, rng := 1, sent := 0, restarts := 0, wrapperDone := false }
    rfl rfl rfl

/-- Contribution of a slot phase to the number of restarts that can still
fire without a fresh ctx.Err() check: only restartPending counts. -/
def pendOfPhase : Phase → Nat
  | Phase.restartPending => 1
  | Phase.selecting => 0
  | Phase.sending _ => 0
  | Phase.doneRun => 0
  | Phase.panicked => 0
  | Phase.stopped => 0

/-- Number of restart invocations of slot i that have passed the
ctx.Err() check but not yet run. -/
def pendRestart (s : SysState) (i : Nat) : Nat :=
  match s.slots.get? i with
  | some sl => pendOfPhase sl.phase
  | none => 0

/-- Any phase contributes at most one pending restart. -/
theorem pendOfPhase_le_one (p : Phase) : pendOfPhase p ≤ 1 := by
  cases p <;> simp [pendOfPhase]

/-- Rewriting lemma: pending restarts of an existing slot. -/
theorem pendRestart_some {s : SysState} {i : Nat} {sl : Slot}
    (h : s.slots.get? i = some sl) : pendRestart s i = pendOfPhase sl.phase := by
  unfold pendRestart
  rw [h]

/-- Rewriting lemma: pending restarts of a missing slot index. -/
theorem pendRestart_none {s : SysState} {i : Nat}
    (h : s.slots.get? i = none) : pendRestart s i = 0 := by
  unfold pendRestart
  rw [h]

/-- A step never creates a slot at an index that had none. -/
theorem get?_none_step {s s1 : SysState} {l : Label}
    (h : step s l = some s1) (i : Nat)
    (h0 : s.slots.get? i = none) : s1.slots.get? i = none := by
  cases step_inv h with
  | cancel hc0 h1 => rw [h1]; exact h0
  | closeCh hcl hall h1 => rw [h1]; exact h0
  | aggRecv d rest hph hb h1 => rw [h1]; exact h0
  | aggCancelExit hph hcn h1 => rw [h1]; exact h0
  | aggCloseExit hph hcl hb h1 => rw [h1]; exact h0
  | aggSummary hph h1 => rw [h1]; exact h0
  | pubRecv d rest hph hb h1 => rw [h1]; exact h0
  | pubCancelExit hph hcn h1 => rw [h1]; exact h0
  | pubCloseExit hph hcl hb h1 => rw [h1]; exact h0
  | pubStatsTick hph h1 => rw [h1]; exact h0
  | tick j sl hg hp h1 =>
    rcases eq_or_ne j i with hj | hj
    · rw [hj] at hg; rw [hg] at h0; exact Option.noConfusion h0
    · rw [h1]; rw [get?_set_other _ j i _ hj]; exact h0
  | sendClosed j sl d hg hp hcl h1 =>
    rcases eq_or_ne j i with hj | hj
    · rw [hj] at hg; rw [hg] at h0; exact Option.noConfusion h0
    · rw [h1]; rw [get?_set_other _ j i _ hj]; exact h0
  | sendOk j sl d hg hp hcl hlen h1 =>
    rcases eq_or_ne j i with hj | hj
    · rw [hj] at hg; rw [hg] at h0; exact Option.noConfusion h0
    · rw [h1]; rw [get?_set_other _ j i _ hj]; exact h0
  | observeCancel j sl hg hp hcn h1 =>
    rcases eq_or_ne j i with hj | hj
    · rw [hj] at hg; rw [hg] at h0; exact Option.noConfusion h0
    · rw [h1]; rw [get?_set_other _ j i _ hj]; exact h0
  | fault j sl hg hp h1 =>
    rcases eq_or_ne j i with hj | hj
    · rw [hj] at hg; rw [hg] at h0; exact Option.noConfusion h0
    · rw [h1]; rw [get?_set_other _ j i _ hj]; exact h0
  | recoverCheck j sl hg hp hcn h1 =>
    rcases eq_or_ne j i with hj | hj
    · rw [hj] at hg; rw [hg] at h0; exact Option.noConfusion h0
    · rw [h1]; rw [get?_set_other _ j i _ hj]; exact h0
  | recoverStop j sl hg hp hcn h1 =>
    rcases eq_or_ne j i with hj | hj
    · rw [hj] at hg; rw [hg] at h0; exact Option.noConfusion h0
    · rw [h1]; rw [get?_set_other _ j i _ hj]; exact h0
  | restartStart j sl hg hp h1 =>
    rcases eq_or_ne j i with hj | hj
    · rw [hj] at hg; rw [hg] at h0; exact Option.noConfusion h0
    · rw [h1]; rw [get?_set_other _ j i _ hj]; exact h0
  | wrapperExit j sl hg hcn hw h1 =>
    rcases eq_or_ne j i with hj | hj
    · rw [hj] at hg; rw [hg] at h0; exact Option.noConfusion h0
    · rw [h1]; rw [get?_set_other _ j i _ hj]; exact h0

/-- Once the context is cancelled, the ctx.Err() check of the recover
handler can never pass again, so the number of pending restarts of a slot
never grows; any step other than the restart itself leaves it bounded by
its old value. -/
theorem pend_step_mono {s s1 : SysState} {l : Label} {i : Nat}
    (h : step s l = some s1) (hc : s.cancelled = true)
    (hl : l ≠ Label.restartStart i) :
    pendRestart s1 i ≤ pendRestart s i := by
  cases hg0 : s.slots.get? i with
  | none =>
    have h1 := get?_none_step h i hg0
    rw [pendRestart_none h1, pendRestart_none hg0]
  | some sl0 =>
    have hp0 : pendRestart s i = pendOfPhase sl0.phase := pendRestart_some hg0
    rcases slot_i_cases h i sl0 hg0 with hsame
      | ⟨_, hp, hget⟩
      | ⟨_, ⟨d, hp⟩, _, hget⟩
      | ⟨_, ⟨d, hp⟩, _, hget⟩
      | ⟨_, hp, _, hget⟩
      | ⟨_, hp, hget⟩
      | ⟨_, hp, hcn, hget⟩
      | ⟨_, hp, _, hget⟩
      | ⟨hleq, hp, hget⟩
      | ⟨_, _, _, hget⟩
    · rw [pendRestart_some hsame, hp0]
    · rw [pendRestart_some hget, hp0]; simp [pendOfPhase]
    · rw [pendRestart_some hget, hp0]; simp [pendOfPhase]
    · rw [pendRestart_some hget, hp0]; simp [pendOfPhase]
    · rw [pendRestart_some hget, hp0]; simp [pendOfPhase]
    · rw [pendRestart_some hget, hp0]; simp [pendOfPhase]
    · rw [hc] at hcn; exact Bool.noConfusion hcn
    · rw [pendRestart_some hget, hp0]; simp [pendOfPhase]
    · exact absurd hleq hl
    · rw [pendRestart_some hget, hp0]

/-- After the context is cancelled, an execution can contain at most as
many restart invocations of a slot as it has pending. -/
theorem restart_bound_aux (i : Nat) :
    ∀ (ls : List Label) (s0 s : SysState), run s0 ls = some s →
      s0.cancelled = true →
      countL (Label.restartStart i) ls ≤ pendRestart s0 i := by
  intro ls
  induction ls with
  | nil => intro s0 s h hc; simp [countL]
  | cons l ls ih =>
    intro s0 s h hc
    obtain ⟨s1, hstep, hrun⟩ := run_cons.mp h
    have hc1 := step_cancelled_mono hstep hc
    have hrest := ih s1 s hrun hc1
    by_cases hl : l = Label.restartStart i
    · subst hl
      cases step_inv hstep with
      | restartStart j sl hg hp h1 =>
        have hp0 : pendRestart s0 i = 1 := by
          rw [pendRestart_some hg, hp]
          rfl
        have hget : s1.slots.get? i = some ({ sl with phase := Phase.selecting, restarts := sl.restarts + 1 }) := by
          rw [h1]; exact get?_set_self _ i _ _ hg
        have hp1 : pendRestart s1 i = 0 := by
          rw [pendRestart_some hget]
          rfl
        rw [hp1] at hrest
        have hcl : countL (Label.restartStart i) (Label.restartStart i :: ls)
            = 1 + countL (Label.restartStart i) ls := by simp [countL]
        rw [hcl, hp0]
        omega
    · have hmono : pendRestart s1 i ≤ pendRestart s0 i := pend_step_mono hstep hc hl
      simp only [countL, if_neg hl]
      omega

/-- C6: for every producer slot, the number of restart invocations started
after the cancellation signal is visible is at most one.  The recover
handler of sensor.Start checks ctx.Err() before restarting; once the
context is cancelled that check can never pass again, so only a restart
whose check happened before cancellation (at most one can be pending per
slot, since faults of a slot are sequential) can still fire. -/
theorem C6_at_most_one_restart_after_cancel (n i : Nat)
    (pre post : List Label) (s : SysState)
    (h : run (initState n) (pre ++ Label.cancel :: post) = some s) :
    countL (Label.restartStart i) post ≤ 1 := by
  obtain ⟨u, hpre, hrest⟩ := run_append h
  obtain ⟨v, hcan, hpost⟩ := run_cons.mp hrest
  have hv : v.cancelled = true := by
    cases step_inv hcan with
    | cancel hc0 h1 => rw [h1]
  have hb := restart_bound_aux i post v s hpost hv
  have hple : pendRestart v i ≤ 1 := by
    cases hg : v.slots.get? i with
    | none => rw [pendRestart_none hg]; exact Nat.zero_le 1
    | some sl => rw [pendRestart_some hg]; exact pendOfPhase_le_one sl.phase
  omega

/-- Witness for C6_at_most_one_restart_after_cancel: a schedule in which a
fault passes the ctx.Err() check just before cancellation and the single
tolerated restart fires after it. -/
theorem C6_at_most_one_restart_after_cancel_witness :
    countL (Label.restartStart 0) [Label.restartStart 0] ≤ 1 :=
  C6_at_most_one_restart_after_cancel 1 0 [Label.fault 0, Label.recoverCheck 0]
    [Label.restartStart 0]
    { cancelled := true, ch := { buf := [], cap := 1000, closed := false }, slots := [{ id := 1, phase := Phase.selecting, rng := 1, sent := 0, restarts := 1, wrapperDone := false }], agg := { phase := AggPhase.running, count := 0 }, pub := { phase := PubPhase.running, received := 0 } }
    rfl

/-- Contribution of a slot phase to the fault-handling balance: a slot
that is unwinding (panicked) or about to restart (restartPending) has one
fault in flight; every other phase has none. -/
def pendFault : Phase → Nat
  | Phase.panicked => 1
  | Phase.restartPending => 1
  | Phase.selecting => 0
  | Phase.sending _ => 0
  | Phase.doneRun => 0
  | Phase.stopped => 0

/-- Fault-accounting invariant for one slot, valid while the context has
not been cancelled: the recorded restarts plus the fault in flight equal
the faults injected so far; the slot id never changes; the slot never
reaches a terminal phase. -/
theorem C4aux (i : Nat) :
    ∀ (ls : List Label) (s0 s : SysState), run s0 ls = some s →
      countL Label.cancel ls = 0 →
      s0.cancelled = false → s0.ch.closed = false →
      ∀ sl0 : Slot, s0.slots.get? i = some sl0 → sl0.wrapperDone = false →
        sl0.phase ≠ Phase.doneRun → sl0.phase ≠ Phase.stopped →
        ∃ sl, s.slots.get? i = some sl ∧
          sl.restarts + pendFault sl.phase
            = sl0.restarts + pendFault sl0.phase + countL (Label.fault i) ls ∧
          sl.id = sl0.id ∧ sl.wrapperDone = false ∧
          sl.phase ≠ Phase.doneRun ∧ sl.phase ≠ Phase.stopped := by
  intro ls
  induction ls with
  | nil =>
    intro s0 s h hnc hc hcl sl0 h0 hw hnd hns
    simp only [run] at h
    injection h with h1
    subst h1
    exact ⟨sl0, h0, by simp [countL], rfl, hw, hnd, hns⟩
  | cons l ls ih =>
    intro s0 s h hnc hc hcl sl0 h0 hw hnd hns
    obtain ⟨s1, hstep, hrun⟩ := run_cons.mp h
    have hlc : l ≠ Label.cancel := by
      intro he
      subst he
      simp [countL] at hnc
    have hncls : countL Label.cancel ls = 0 := by
      simp only [countL] at hnc
      rw [if_neg hlc] at hnc
      omega
    cases step_inv hstep with
    | cancel hc0 h1 => exact absurd rfl hlc
    | closeCh hcl0 hall h1 =>
      have hfalse := all_eq_false_of_get? (fun sl => sl.wrapperDone) s0.slots i sl0 h0 hw
      rw [hall] at hfalse
      exact Bool.noConfusion hfalse
    | aggRecv d rest hph hb h1 =>
      obtain ⟨sl, ha, hb2, hc2, hd2, he2, hf2⟩ :=
        ih s1 s hrun hncls (by rw [h1]; exact hc) (by rw [h1]; exact hcl)
          sl0 (by rw [h1]; exact h0) hw hnd hns
      refine ⟨sl, ha, ?_, hc2, hd2, he2, hf2⟩
      have hcnt : countL (Label.fault i) (Label.aggRecv :: ls) = countL (Label.fault i) ls := by
        simp [countL]
      rw [hcnt]
      exact hb2
    | aggCancelExit hph hcn h1 =>
      rw [hc] at hcn
      exact Bool.noConfusion hcn
    | aggCloseExit hph hcl0 hb h1 =>
      rw [hcl] at hcl0
      exact Bool.noConfusion hcl0
    | aggSummary hph h1 =>
      obtain ⟨sl, ha, hb2, hc2, hd2, he2, hf2⟩ :=
        ih s1 s hrun hncls (by rw [h1]; exact hc) (by rw [h1]; exact hcl)
          sl0 (by rw [h1]; exact h0) hw hnd hns
      refine ⟨sl, ha, ?_, hc2, hd2, he2, hf2⟩
      have hcnt : countL (Label.fault i) (Label.aggSummary :: ls) = countL (Label.fault i) ls := by
        simp [countL]
      rw [hcnt]
      exact hb2
    | pubRecv d rest hph hb h1 =>
      obtain ⟨sl, ha, hb2, hc2, hd2, he2, hf2⟩ :=
        ih s1 s hrun hncls (by rw [h1]; exact hc) (by rw [h1]; exact hcl)
          sl0 (by rw [h1]; exact h0) hw hnd hns
      refine ⟨sl, ha, ?_, hc2, hd2, he2, hf2⟩
      have hcnt : countL (Label.fault i) (Label.pubRecv :: ls) = countL (Label.fault i) ls := by
        simp [countL]
      rw [hcnt]
      exact hb2
    | pubCancelExit hph hcn h1 =>
      rw [hc] at hcn
      exact Bool.noConfusion hcn
    | pubCloseExit hph hcl0 hb h1 =>
      rw [hcl] at hcl0
      exact Bool.noConfusion hcl0
    | pubStatsTick hph h1 =>
      obtain ⟨sl, ha, hb2, hc2, hd2, he2, hf2⟩ :=
        ih s1 s hrun hncls (by rw [h1]; exact hc) (by rw [h1]; exact hcl)
          sl0 (by rw [h1]; exact h0) hw hnd hns
      refine ⟨sl, ha, ?_, hc2, hd2, he2, hf2⟩
      have hcnt : countL (Label.fault i) (Label.pubStatsTick :: ls) = countL (Label.fault i) ls := by
        simp [countL]
      rw [hcnt]
      exact hb2
    | tick j sl hg hp h1 =>
      rcases eq_or_ne j i with hj | hj
      · subst hj
        rw [h0] at hg
        injection hg with hg
        subst hg
        have hget : s1.slots.get? j = some ({ sl0 with phase := Phase.sending ⟨sl0.id, sl0.rng⟩, rng := sl0.rng + 1 }) := by
          rw [h1]; exact get?_set_self _ j _ _ h0
        obtain ⟨sl, ha, hb2, hc2, hd2, he2, hf2⟩ :=
          ih s1 s hrun hncls (by rw [h1]; exact hc) (by rw [h1]; exact hcl)
            _ hget hw (by simp) (by simp)
        refine ⟨sl, ha, ?_, hc2, hd2, he2, hf2⟩
        have hcnt : countL (Label.fault j) (Label.tick j :: ls) = countL (Label.fault j) ls := by
          simp [countL]
        rw [hcnt, hp]
        have hb3 : sl.restarts + pendFault sl.phase
            = sl0.restarts + pendFault Phase.selecting + countL (Label.fault j) ls := by
          simpa [pendFault] using hb2
        exact hb3
      · have hget : s1.slots.get? i = some sl0 := by
          rw [h1]; rw [get?_set_other _ j i _ hj]; exact h0
        obtain ⟨sl, ha, hb2, hc2, hd2, he2, hf2⟩ :=
          ih s1 s hrun hncls (by rw [h1]; exact hc) (by rw [h1]; exact hcl)
            sl0 hget hw hnd hns
        refine ⟨sl, ha, ?_, hc2, hd2, he2, hf2⟩
        have hcnt : countL (Label.fault i) (Label.tick j :: ls) = countL (Label.fault i) ls := by
          simp [countL]
        rw [hcnt]
        exact hb2
    | sendClosed j sl d hg hp hcl0 h1 =>
      rw [hcl] at hcl0
      exact Bool.noConfusion hcl0
    | sendOk j sl d hg hp hcl0 hlen h1 =>
      rcases eq_or_ne j i with hj | hj
      · subst hj
        rw [h0] at hg
        injection hg with hg
        subst hg
        have hget : s1.slots.get? j = some ({ sl0 with phase := Phase.selecting, sent := sl0.sent + 1 }) := by
          rw [h1]; exact get?_set_self _ j _ _ h0
        obtain ⟨sl, ha, hb2, hc2, hd2, he2, hf2⟩ :=
          ih s1 s hrun hncls (by rw [h1]; exact hc) (by rw [h1]; exact hcl)
            _ hget hw (by simp) (by simp)
        refine ⟨sl, ha, ?_, hc2, hd2, he2, hf2⟩
        have hcnt : countL (Label.fault j) (Label.send j :: ls) = countL (Label.fault j) ls := by
          simp [countL]
        rw [hcnt, hp]
        have hb3 : sl.restarts + pendFault sl.phase
            = sl0.restarts + pendFault (Phase.sending d) + countL (Label.fault j) ls := by
          simpa [pendFault] using hb2
        exact hb3
      · have hget : s1.slots.get? i = some sl0 := by
          rw [h1]; rw [get?_set_other _ j i _ hj]; exact h0
        obtain ⟨sl, ha, hb2, hc2, hd2, he2, hf2⟩ :=
          ih s1 s hrun hncls (by rw [h1]; exact hc) (by rw [h1]; exact hcl)
            sl0 hget hw hnd hns
        refine ⟨sl, ha, ?_, hc2, hd2, he2, hf2⟩
        have hcnt : countL (Label.fault i) (Label.send j :: ls) = countL (Label.fault i) ls := by
          simp [countL]
        rw [hcnt]
        exact hb2
    | observeCancel j sl hg hp hcn h1 =>
      rw [hc] at hcn
      exact Bool.noConfusion hcn
    | fault j sl hg hp h1 =>
      rcases eq_or_ne j i with hj | hj
      · subst hj
        rw [h0] at hg
        injection hg with hg
        subst hg
        have hget : s1.slots.get? j = some ({ sl0 with phase := Phase.panicked }) := by
          rw [h1]; exact get?_set_self _ j _ _ h0
        obtain ⟨sl, ha, hb2, hc2, hd2, he2, hf2⟩ :=
          ih s1 s hrun hncls (by rw [h1]; exact hc) (by rw [h1]; exact hcl)
            _ hget hw (by simp) (by simp)
        refine ⟨sl, ha, ?_, hc2, hd2, he2, hf2⟩
        have hcnt : countL (Label.fault j) (Label.fault j :: ls) = 1 + countL (Label.fault j) ls := by
          simp [countL]
        have hp0 : pendFault sl0.phase = 0 := by
          rcases hp with hp | ⟨d, hp⟩ <;> rw [hp] <;> rfl
        have hb3 : sl.restarts + pendFault sl.phase
            = sl0.restarts + 1 + countL (Label.fault j) ls := by
          simpa [pendFault] using hb2
        rw [hcnt, hp0]
        omega
      · have hget : s1.slots.get? i = some sl0 := by
          rw [h1]; rw [get?_set_other _ j i _ hj]; exact h0
        obtain ⟨sl, ha, hb2, hc2, hd2, he2, hf2⟩ :=
          ih s1 s hrun hncls (by rw [h1]; exact hc) (by rw [h1]; exact hcl)
            sl0 hget hw hnd hns
        refine ⟨sl, ha, ?_, hc2, hd2, he2, hf2⟩
        have hcnt : countL (Label.fault i) (Label.fault j :: ls) = countL (Label.fault i) ls := by
          simp [countL, hj]
        rw [hcnt]
        exact hb2
    | recoverCheck j sl hg hp hcn h1 =>
      rcases eq_or_ne j i with hj | hj
      · subst hj
        rw [h0] at hg
        injection hg with hg
        subst hg
        have hget : s1.slots.get? j = some ({ sl0 with phase := Phase.restartPending }) := by
          rw [h1]; exact get?_set_self _ j _ _ h0
        obtain ⟨sl, ha, hb2, hc2, hd2, he2, hf2⟩ :=
          ih s1 s hrun hncls (by rw [h1]; exact hc) (by rw [h1]; exact hcl)
            _ hget hw (by simp) (by simp)
        refine ⟨sl, ha, ?_, hc2, hd2, he2, hf2⟩
        have hcnt : countL (Label.fault j) (Label.recoverCheck j :: ls) = countL (Label.fault j) ls := by
          simp [countL]
        rw [hcnt, hp]
        have hb3 : sl.restarts + pendFault sl.phase
            = sl0.restarts + pendFault Phase.panicked + countL (Label.fault j) ls := by
          simpa [pendFault] using hb2
        exact hb3
      · have hget : s1.slots.get? i = some sl0 := by
          rw [h1]; rw [get?_set_other _ j i _ hj]; exact h0
        obtain ⟨sl, ha, hb2, hc2, hd2, he2, hf2⟩ :=
          ih s1 s hrun hncls (by rw [h1]; exact hc) (by rw [h1]; exact hcl)
            sl0 hget hw hnd hns
        refine ⟨sl, ha, ?_, hc2, hd2, he2, hf2⟩
        have hcnt : countL (Label.fault i) (Label.recoverCheck j :: ls) = countL (Label.fault i) ls := by
          simp [countL]
        rw [hcnt]
        exact hb2
    | recoverStop j sl hg hp hcn h1 =>
      rw [hc] at hcn
      exact Bool.noConfusion hcn
    | restartStart j sl hg hp h1 =>
      rcases eq_or_ne j i with hj | hj
      · subst hj
        rw [h0] at hg
        injection hg with hg
        subst hg
        have hget : s1.slots.get? j = some ({ sl0 with phase := Phase.selecting, restarts := sl0.restarts + 1 }) := by
          rw [h1]; exact get?_set_self _ j _ _ h0
        obtain ⟨sl, ha, hb2, hc2, hd2, he2, hf2⟩ :=
          ih s1 s hrun hncls (by rw [h1]; exact hc) (by rw [h1]; exact hcl)
            _ hget hw (by simp) (by simp)
        refine ⟨sl, ha, ?_, hc2, hd2, he2, hf2⟩
        have hcnt : countL (Label.fault j) (Label.restartStart j :: ls) = countL (Label.fault j) ls := by
          simp [countL]
        have hb3 : sl.restarts + pendFault sl.phase
            = sl0.restarts + 1 + countL (Label.fault j) ls := by
          simpa [pendFault] using hb2
        rw [hcnt, hp]
        have hpf : pendFault Phase.restartPending = 1 := rfl
        rw [hpf]
        omega
      · have hget : s1.slots.get? i = some sl0 := by
          rw [h1]; rw [get?_set_other _ j i _ hj]; exact h0
        obtain ⟨sl, ha, hb2, hc2, hd2, he2, hf2⟩ :=
          ih s1 s hrun hncls (by rw [h1]; exact hc) (by rw [h1]; exact hcl)
            sl0 hget hw hnd hns
        refine ⟨sl, ha, ?_, hc2, hd2, he2, hf2⟩
        have hcnt : countL (Label.fault i) (Label.restartStart j :: ls) = countL (Label.fault i) ls := by
          simp [countL]
        rw [hcnt]
        exact hb2
    | wrapperExit j sl hg hcn hw0 h1 =>
      rw [hc] at hcn
      exact Bool.noConfusion hcn

/-- C4: for any producer slot that suffers exactly K panics while the
cancellation signal is not yet set, exactly K restart events are recorded
for that id (metrics.SensorRestarts rises to K), and after the faults are
handled the slot is again live in its emit loop under the same id. -/
theorem C4_restarts_equal_faults (n : Nat) (ls : List Label) (s : SysState)
    (i K : Nat) (sl : Slot)
    (h : run (initState n) ls = some s)
    (hnc : countL Label.cancel ls = 0)
    (hK : countL (Label.fault i) ls = K)
    (hsl : s.slots.get? i = some sl)
    (hdone : sl.phase ≠ Phase.panicked ∧ sl.phase ≠ Phase.restartPending)
    (hin : i < n) :
    sl.restarts = K ∧ sl.id = i + 1 ∧
      (sl.phase = Phase.selecting ∨ ∃ d, sl.phase = Phase.sending d) := by
  have h0 : (initState n).slots.get? i = some (initSlot (i + 1)) := by
    show (((List.range n).map (fun k => initSlot (k + 1))).get? i) = _
    rw [List.get?_map, List.get?_range hin]  -- deprecated aliases still valid here
    rfl
  obtain ⟨sl2, hget, heq, hid, hwd, hnd, hns⟩ :=
    C4aux i ls (initState n) s h hnc rfl rfl (initSlot (i + 1)) h0 rfl
      (by simp [initSlot]) (by simp [initSlot])
  rw [hsl] at hget
  injection hget with he2
  subst he2
  have hpf : pendFault sl.phase = 0 := by
    cases hph : sl.phase
    case panicked => exact absurd hph hdone.1
    case restartPending => exact absurd hph hdone.2
    all_goals rfl
  have heq2 : sl.restarts = K := by
    rw [hK, hpf] at heq
    have e1 : (initSlot (i + 1)).restarts = 0 := rfl
    have e2 : pendFault (initSlot (i + 1)).phase = 0 := rfl
    rw [e1, e2] at heq
    omega
  refine ⟨heq2, by rw [hid]; rfl, ?_⟩
  cases hph : sl.phase
  case selecting => exact Or.inl rfl
  case sending d => exact Or.inr ⟨d, rfl⟩
  case doneRun => exact absurd hph hnd
  case stopped => exact absurd hph hns
  case panicked => exact absurd hph hdone.1
  case restartPending => exact absurd hph hdone.2

/-- Witness for C4_restarts_equal_faults: one injected fault before
cancellation, handled and restarted: the restart counter reads exactly
one and the slot is live again under id 1. -/
theorem C4_restarts_equal_faults_witness :
    ({ id := 1, phase := Phase.selecting, rng := 1, sent := 0, restarts := 1, wrapperDone := false } : Slot).restarts = 1
    ∧ ({ id := 1, phase := Phase.selecting, rng := 1, sent := 0, restarts := 1, wrapperDone := false } : Slot).id = 0 + 1
    ∧ (({ id := 1, phase := Phase.selecting, rng := 1, sent := 0, restarts := 1, wrapperDone := false } : Slot).phase = Phase.selecting
       ∨ ∃ d, ({ id := 1, phase := Phase.selecting, rng := 1, sent := 0, restarts := 1, wrapperDone := false } : Slot).phase = Phase.sending d) :=
  C4_restarts_equal_faults 1 [Label.fault 0, Label.recoverCheck 0, Label.restartStart 0]
    { cancelled := false, ch := { buf := [], cap := 1000, closed := false }, slots := [{ id := 1, phase := Phase.selecting, rng := 1, sent := 0, restarts := 1, wrapperDone := false }], agg := { phase := AggPhase.running, count := 0 }, pub := { phase := PubPhase.running, received := 0 } }
    0 1 { id := 1, phase := Phase.selecting, rng := 1, sent := 0, restarts := 1, wrapperDone := false }
    rfl rfl rfl rfl (by constructor <;> simp) (by omega)

/-! Functional models of the remaining components: the metrics and pprof
HTTP servers, the NATS publisher loop, and the constructors with their
nil-guarded metrics accesses. -/

/-- Result of http.Server.ListenAndServe as tested by the code:
http.ErrServerClosed (the normal result of a graceful Shutdown) or any
other error (a bind failure etc.). -/
inductive ServeResult where
  | serverClosed
  | failed (msg : String)
deriving DecidableEq, Repr

/-- What a fault does to the process: ends it, or stays inside the
owning component. -/
inductive FaultResponse where
  | processExit
  | containedLocally
deriving DecidableEq, Repr

/-- MetricsServer.Serve, internal/server/metrics_server.go lines 37-43:
`if err := s.server.ListenAndServe(); err != http.ErrServerClosed {
log.Fatalf(...) }` — log.Fatalf calls os.Exit and ends the whole
process. -/
def metricsServeGoroutine : ServeResult → FaultResponse
  | ServeResult.serverClosed => FaultResponse.containedLocally
  | ServeResult.failed _ => FaultResponse.processExit

/-- StartPprofServer, src/unnamed/part_005 lines 27-32: on the same
condition it only calls log.Printf and the goroutine ends; the process
keeps running. -/
def pprofServeGoroutine : ServeResult → FaultResponse
  | ServeResult.serverClosed => FaultResponse.containedLocally
  | ServeResult.failed _ => FaultResponse.containedLocally

/-- Decision of the deferred recover of sensor.Start (sensor.go lines
99-110): restart unless ctx.Err() reports cancellation. -/
inductive RecoverDecision where
  | restartSlot
  | stopSlot
deriving DecidableEq, Repr

/-- sensor.go line 101: `if ctx.Err() == nil { ... Start(...) }`. -/
def startRecoverDecision (cancelled : Bool) : RecoverDecision :=
  if cancelled then RecoverDecision.stopSlot else RecoverDecision.restartSlot

/-- A producer panic is absorbed by the recover handler: both of its
branches return normally from the deferred function, so the fault never
escapes the slot goroutine. -/
def sensorPanicResponse (cancelled : Bool) : FaultResponse :=
  match startRecoverDecision cancelled with
  | RecoverDecision.restartSlot => FaultResponse.containedLocally
  | RecoverDecision.stopSlot => FaultResponse.containedLocally

/-- Answer of the broker for one publish call, as visible to
Publisher.publish via the returned error. -/
inductive PublishOutcome where
  | ok
  | timeout
  | brokerError
deriving DecidableEq, Repr

/-- Environment of one publish attempt: natsClient.IsConnected and the
broker answer the attempt would get. -/
structure PubEnv where
  connected : Bool
  outcome : PublishOutcome
deriving DecidableEq, Repr

/-- Publisher.publish, internal/publisher/publisher.go lines 104-127:
returns an error immediately when not connected, otherwise publishes
under the per-message timeout context and returns its error.  `true`
means the attempt succeeded. -/
def publisherPublish (env : PubEnv) : Bool :=
  if !env.connected then false
  else match env.outcome with
    | PublishOutcome.ok => true
    | PublishOutcome.timeout => false
    | PublishOutcome.brokerError => false

/-- context.WithTimeout(ctx, 2*time.Second) at publisher.go line 114: the
deadline of the publish context given the current time and the parent
deadline (in seconds). -/
def publishDeadline (now parentDeadline : Nat) : Nat :=
  min parentDeadline (now + 2)

/-- One select iteration event of Publisher.Run (publisher.go lines
54-101). -/
inductive PubEvent where
  | ctxDone
  | chClosed
  | recv (d : SensorData) (env : PubEnv)
  | statsTick
deriving DecidableEq, Repr

/-- Local state of Publisher.Run: successCount and failureCount
(publisher.go lines 51-52), plus the number of publish attempts made,
used to state that each reading is attempted exactly once. -/
structure PubState where
  successCount : Nat
  failureCount : Nat
  attempts : Nat
deriving DecidableEq, Repr

/-- One select iteration of Publisher.Run: `none` means Run returned
(ctx.Done, or the channel reported closed); a received reading is
published once, the matching counter incremented, and the loop continues
in every case — a failed reading is dropped, not re-queued. -/
def pubRunStep (st : PubState) : PubEvent → Option PubState
  | PubEvent.ctxDone => none
  | PubEvent.chClosed => none
  | PubEvent.recv _ env =>
      if publisherPublish env then
        some { st with successCount := st.successCount + 1, attempts := st.attempts + 1 }
      else
        some { st with failureCount := st.failureCount + 1, attempts := st.attempts + 1 }
  | PubEvent.statsTick => some st

/-- Fold of the Run loop over a list of events, stopping at the first
exit event. -/
def pubRun (st : PubState) : List PubEvent → PubState
  | [] => st
  | e :: es =>
    match pubRunStep st e with
    | some st1 => pubRun st1 es
    | none => st

/-- Event classifiers for the publisher loop. -/
def isRecvEvent : PubEvent → Bool
  | PubEvent.recv _ _ => true
  | _ => false

def isExitEvent : PubEvent → Bool
  | PubEvent.ctxDone => true
  | PubEvent.chClosed => true
  | _ => false

/-- Each reading handed to the loop is attempted exactly once: over any
stretch of the loop with no exit event, the attempt counter rises by
exactly the number of received readings — there is no retry queue. -/
theorem pubRun_attempts :
    ∀ (es : List PubEvent) (st : PubState),
      es.all (fun e => !isExitEvent e) = true →
      (pubRun st es).attempts = st.attempts + (es.filter (fun e => isRecvEvent e)).length := by
  intro es
  induction es with
  | nil => intro st h; simp [pubRun]
  | cons e es ih =>
    intro st h
    simp only [List.all_cons, Bool.and_eq_true] at h
    cases e with
    | ctxDone => simp [isExitEvent] at h
    | chClosed => simp [isExitEvent] at h
    | statsTick =>
      have h2 := ih st h.2
      simpa [pubRun, pubRunStep, List.filter, isRecvEvent] using h2
    | recv d env =>
      have hf : (PubEvent.recv d env :: es).filter (fun e => isRecvEvent e)
          = PubEvent.recv d env :: es.filter (fun e => isRecvEvent e) := by
        rw [List.filter_cons]
        simp [isRecvEvent]
      cases hp : publisherPublish env with
      | true =>
        have h2 := ih { st with successCount := st.successCount + 1, attempts := st.attempts + 1 } h.2
        simp only [pubRun, pubRunStep, hp, if_true]
        rw [h2, hf]
        simp only [List.length_cons]
        omega
      | false =>
        have h2 := ih { st with failureCount := st.failureCount + 1, attempts := st.attempts + 1 } h.2
        simp only [pubRun, pubRunStep, hp, Bool.false_eq_true, if_false]
        rw [h2, hf]
        simp only [List.length_cons]
        omega

/-- C8: a failed publish attempt (not connected, timeout or broker error)
increments the failure counter by exactly one and makes exactly one
attempt, and the loop continues (the step yields a next state rather
than returning); every publish context deadline is at most two seconds
from now; and over any stretch of the loop each received reading is
attempted exactly once — the failed reading is never retried or
re-queued. -/
theorem C8_publish_failure_counted_no_retry (st : PubState) (d : SensorData)
    (env : PubEnv) (hfail : publisherPublish env = false) :
    pubRunStep st (PubEvent.recv d env)
      = some { st with failureCount := st.failureCount + 1, attempts := st.attempts + 1 }
    ∧ (∀ now parentDeadline : Nat, publishDeadline now parentDeadline ≤ now + 2)
    ∧ (∀ (es : List PubEvent) (st0 : PubState),
        es.all (fun e => !isExitEvent e) = true →
        (pubRun st0 es).attempts = st0.attempts + (es.filter (fun e => isRecvEvent e)).length) := by
  refine ⟨?_, ?_, ?_⟩
  · simp [pubRunStep, hfail]
  · intro now parentDeadline
    exact Nat.min_le_right _ _
  · intro es st0 hes
    exact pubRun_attempts es st0 hes

/-- Witness for C8_publish_failure_counted_no_retry: the broker is
unreachable (not connected), the attempt fails. -/
theorem C8_publish_failure_counted_no_retry_witness :
    pubRunStep { successCount := 0, failureCount := 0, attempts := 0 } (PubEvent.recv ⟨1, 0⟩ ⟨false, PublishOutcome.ok⟩)
      = some { successCount := 0, failureCount := 1, attempts := 1 }
    ∧ (∀ now parentDeadline : Nat, publishDeadline now parentDeadline ≤ now + 2)
    ∧ (∀ (es : List PubEvent) (st0 : PubState),
        es.all (fun e => !isExitEvent e) = true →
        (pubRun st0 es).attempts = st0.attempts + (es.filter (fun e => isRecvEvent e)).length) :=
  C8_publish_failure_counted_no_retry { successCount := 0, failureCount := 0, attempts := 0 }
    ⟨1, 0⟩ ⟨false, PublishOutcome.ok⟩ rfl

/-- A publish failure as seen by the whole process: derived from the run
loop model — the loop continues, so the fault is contained. -/
def publisherFailureResponse (env : PubEnv) : FaultResponse :=
  match pubRunStep { successCount := 0, failureCount := 0, attempts := 0 } (PubEvent.recv ⟨0, 0⟩ env) with
  | some _ => FaultResponse.containedLocally
  | none => FaultResponse.processExit

/-- The fault taxonomy of the program. -/
inductive FaultClass where
  | metricsServeFailure (msg : String)
  | pprofServeFailure (msg : String)
  | producerPanic (cancelled : Bool)
  | publishFailure (env : PubEnv)
  | natsConnectFailure
deriving Repr

/-- What each fault class does to the process, assembled from the
per-component models.  A NATS connection failure at startup is logged and
the program continues with NATS disabled (main.go lines 72-77). -/
def faultResponse : FaultClass → FaultResponse
  | FaultClass.metricsServeFailure msg => metricsServeGoroutine (ServeResult.failed msg)
  | FaultClass.pprofServeFailure msg => pprofServeGoroutine (ServeResult.failed msg)
  | FaultClass.producerPanic cancelled => sensorPanicResponse cancelled
  | FaultClass.publishFailure env => publisherFailureResponse env
  | FaultClass.natsConnectFailure => FaultResponse.containedLocally

/-- C7: exactly one fault class ends the process — a failure of the
metrics exposition server; a pprof server failure, a producer panic, a
publish failure and a NATS connection failure are all contained in their
owning component. -/
theorem C7_only_metrics_serve_failure_is_fatal (f : FaultClass) :
    faultResponse f = FaultResponse.processExit ↔
      ∃ msg, f = FaultClass.metricsServeFailure msg := by
  cases f with
  | metricsServeFailure msg =>
    constructor
    · intro _; exact ⟨msg, rfl⟩
    · intro _; rfl
  | pprofServeFailure msg =>
    constructor
    · intro hx; exact absurd hx (by simp [faultResponse, pprofServeGoroutine])
    · intro hx; obtain ⟨m, hm⟩ := hx; exact FaultClass.noConfusion hm
  | producerPanic c =>
    constructor
    · intro hx
      exact absurd hx (by cases c <;> simp [faultResponse, sensorPanicResponse, startRecoverDecision])
    · intro hx; obtain ⟨m, hm⟩ := hx; exact FaultClass.noConfusion hm
  | publishFailure env =>
    constructor
    · intro hx
      exact absurd hx (by cases hp : publisherPublish env <;>
        simp [faultResponse, publisherFailureResponse, pubRunStep, hp])
    · intro hx; obtain ⟨m, hm⟩ := hx; exact FaultClass.noConfusion hm
  | natsConnectFailure =>
    constructor
    · intro hx; exact absurd hx (by simp [faultResponse])
    · intro hx; obtain ⟨m, hm⟩ := hx; exact FaultClass.noConfusion hm

/-! Constructors and nil-guarded metrics accesses (claim C9).  A nil Go
pointer is an Option none here; an unguarded dereference of a nil
reference is the error case of derefMetrics. -/

/-- Metrics registry handle.  Modelled from the spec: the package
internal/metrics is not under src/ (only its callers are); per spec
section 6 it holds counters for active producers, messages sent and
received, restarts, publish success/failure/latency and connection
status.  The label bookkeeping of the counter vectors is irrelevant to
the claims, so each metric is a single accumulator. -/
structure Metrics where
  activeSensors : Int
  messagesSent : Nat
  generatedValues : Nat
  messagesReceived : Nat
  sensorRestarts : Nat
  natsPublishSuccess : Nat
  natsPublishFailures : Nat
  natsPublishLatency : Nat
  natsConnectionStatus : Int
deriving DecidableEq, Repr

/-- Dereference of a possibly-nil metrics pointer: faults on nil. -/
def derefMetrics (m : Option Metrics) : Except String Metrics :=
  match m with
  | some mm => Except.ok mm
  | none => Except.error ("nil pointer dereference")

/-- Abstraction of a slog.Logger: whether it is the process default
plus the structured attributes attached with With. -/
structure Logger where
  isDefault : Bool
  attrs : List (String × Nat)
deriving DecidableEq, Repr

/-- slog.Default() -/
def defaultLogger : Logger := { isDefault := true, attrs := [] }

/-- logger.With(key, value) -/
def Logger.withAttr (l : Logger) (k : String) (v : Nat) : Logger :=
  { l with attrs := l.attrs ++ [(k, v)] }

/-- internal/sensor Sensor (sensor.go lines 19-28): the fields relevant
to construction and instrumentation; the channel, the random state and
the mutex live in the operational model above. -/
structure Sensor where
  ID : Nat
  Interval : Nat
  idStr : String
  metrics : Option Metrics
  logger : Logger
deriving DecidableEq, Repr

/-- NewSensor (sensor.go lines 31-47): a nil logger falls back to
slog.Default(); the metrics pointer is stored as given (possibly nil);
construction always succeeds. -/
def NewSensor (id interval : Nat) (m : Option Metrics) (l : Option Logger) : Sensor :=
  let l2 := match l with
            | none => defaultLogger
            | some lg => lg
  { ID := id, Interval := interval, idStr := toString id, metrics := m,
    logger := (l2.withAttr ("component") 0).withAttr ("sensor_id") id }

/-- The guarded gauge instrumentation at the entry of Sensor.Run
(sensor.go lines 57-60): `if s.metrics != nil { ActiveSensors.Inc() }`.
The dereference happens only under the guard. -/
def sensorRunEntryInstr (s : Sensor) : Except String Sensor :=
  if s.metrics.isSome then
    match derefMetrics s.metrics with
    | Except.ok mm => Except.ok { s with metrics := some { mm with activeSensors := mm.activeSensors + 1 } }
    | Except.error e => Except.error e
  else Except.ok s

/-- The guarded instrumentation after a successful send (sensor.go lines
80-84): MessagesSent.Inc and GeneratedValues.Observe. -/
def sensorRunSendInstr (s : Sensor) : Except String Sensor :=
  if s.metrics.isSome then
    match derefMetrics s.metrics with
    | Except.ok mm => Except.ok { s with metrics := some { mm with messagesSent := mm.messagesSent + 1, generatedValues := mm.generatedValues + 1 } }
    | Except.error e => Except.error e
  else Except.ok s

/-- internal/aggregator Aggregator (src/unnamed/part_002 lines 15-19):
construction-relevant fields. -/
structure Aggregator where
  metrics : Option Metrics
  logger : Logger
deriving DecidableEq, Repr

/-- aggregator.New (part_002 lines 22-32): nil logger falls back to
slog.Default(); metrics stored as given. -/
def Aggregator.New (m : Option Metrics) (l : Option Logger) : Aggregator :=
  let l2 := match l with
            | none => defaultLogger
            | some lg => lg
  { metrics := m, logger := l2.withAttr ("component") 1 }

/-- The guarded receipt instrumentation of Aggregator.Run (part_002
lines 57-60): `if a.metrics != nil { MessagesReceived.Inc() }`. -/
def aggRecvInstr (a : Aggregator) : Except String Aggregator :=
  if a.metrics.isSome then
    match derefMetrics a.metrics with
    | Except.ok mm => Except.ok { a with metrics := some { mm with messagesReceived := mm.messagesReceived + 1 } }
    | Except.error e => Except.error e
  else Except.ok a

/-- internal/publisher Publisher (publisher.go lines 18-24):
construction-relevant fields. -/
structure Publisher where
  subjectPfx : String
  metrics : Option Metrics
  logger : Logger
deriving DecidableEq, Repr

/-- publisher.New (publisher.go lines 27-39): nil logger falls back to
slog.Default(); metrics stored as given. -/
def Publisher.New (subjectPfx : String) (m : Option Metrics) (l : Option Logger) : Publisher :=
  let l2 := match l with
            | none => defaultLogger
            | some lg => lg
  { subjectPfx := subjectPfx, metrics := m, logger := l2.withAttr ("component") 2 }

/-- The guarded failure-counter instrumentation of Publisher.Run
(publisher.go lines 75-80). -/
def pubFailureInstr (p : Publisher) : Except String Publisher :=
  if p.metrics.isSome then
    match derefMetrics p.metrics with
    | Except.ok mm => Except.ok { p with metrics := some { mm with natsPublishFailures := mm.natsPublishFailures + 1 } }
    | Except.error e => Except.error e
  else Except.ok p

/-- The guarded success-counter instrumentation of Publisher.Run
(publisher.go lines 84-88). -/
def pubSuccessInstr (p : Publisher) : Except String Publisher :=
  if p.metrics.isSome then
    match derefMetrics p.metrics with
    | Except.ok mm => Except.ok { p with metrics := some { mm with natsPublishSuccess := mm.natsPublishSuccess + 1 } }
    | Except.error e => Except.error e
  else Except.ok p

/-- The guarded latency observation of Publisher.publish (publisher.go
lines 117-122). -/
def pubLatencyInstr (p : Publisher) : Except String Publisher :=
  if p.metrics.isSome then
    match derefMetrics p.metrics with
    | Except.ok mm => Except.ok { p with metrics := some { mm with natsPublishLatency := mm.natsPublishLatency + 1 } }
    | Except.error e => Except.error e
  else Except.ok p

/-- C9: for each component, constructing with a nil logger and a nil
metrics reference succeeds, substitutes the default logger, and every
metrics access in the run loops is guarded, so no operation ever
dereferences the nil reference: every instrumentation point returns
without fault. -/
theorem C9_nil_references_degrade (id interval : Nat) (pfx : String) :
    (NewSensor id interval none none).logger.isDefault = true
    ∧ (NewSensor id interval none none).metrics = none
    ∧ sensorRunEntryInstr (NewSensor id interval none none)
        = Except.ok (NewSensor id interval none none)
    ∧ sensorRunSendInstr (NewSensor id interval none none)
        = Except.ok (NewSensor id interval none none)
    ∧ (Aggregator.New none none).logger.isDefault = true
    ∧ (Aggregator.New none none).metrics = none
    ∧ aggRecvInstr (Aggregator.New none none) = Except.ok (Aggregator.New none none)
    ∧ (Publisher.New pfx none none).logger.isDefault = true
    ∧ (Publisher.New pfx none none).metrics = none
    ∧ pubFailureInstr (Publisher.New pfx none none) = Except.ok (Publisher.New pfx none none)
    ∧ pubSuccessInstr (Publisher.New pfx none none) = Except.ok (Publisher.New pfx none none)
    ∧ pubLatencyInstr (Publisher.New pfx none none) = Except.ok (Publisher.New pfx none none) := by
  refine ⟨rfl, rfl, rfl, rfl, rfl, rfl, rfl, rfl, rfl, rfl, rfl, rfl⟩

/-! Gauge balance of one Sensor.Run invocation (claim C10). -/

/-- Observable events of one Sensor.Run invocation. -/
inductive RunEvent where
  | logStart
  | logStop
  | gaugeInc
  | gaugeDec
  | tickerStop
  | sendData (k : Nat)
  | sentMetric (k : Nat)
deriving DecidableEq, Repr

/-- How one Sensor.Run invocation ends: a clean return through the
ctx.Done branch after some number of complete iterations, or a panic
thrown by the send of the next iteration (e.g. send on a closed
channel). -/
inductive RunExit where
  | cleanReturn (iters : Nat)
  | panicOnSend (iters : Nat)
deriving DecidableEq, Repr

/-- Events of k complete loop iterations (sensor.go lines 68-85): each
iteration sends one reading and, when metrics are present, records the
send. -/
def sensorLoopEvents (hasMetrics : Bool) : Nat → List RunEvent
  | 0 => []
  | k + 1 => sensorLoopEvents hasMetrics k ++ [RunEvent.sendData k]
      ++ (if hasMetrics then [RunEvent.sentMetric k] else [])

/-- Full event trace of one Sensor.Run invocation (sensor.go lines
51-88).  Entry: the start log, then — only when the metrics reference is
present — ActiveSensors.Inc with the matching deferred Dec registered.
Exit: Go defers run on a normal return and during panic unwinding alike,
innermost first, so the gauge Dec precedes the deferred ticker.Stop on
both paths; the stopping log happens only on the ctx.Done path, and a
panicking send records no sent metric. -/
def sensorRunEvents (hasMetrics : Bool) : RunExit → List RunEvent
  | RunExit.cleanReturn iters =>
      [RunEvent.logStart] ++ (if hasMetrics then [RunEvent.gaugeInc] else [])
        ++ sensorLoopEvents hasMetrics iters ++ [RunEvent.logStop]
        ++ (if hasMetrics then [RunEvent.gaugeDec] else []) ++ [RunEvent.tickerStop]
  | RunExit.panicOnSend iters =>
      [RunEvent.logStart] ++ (if hasMetrics then [RunEvent.gaugeInc] else [])
        ++ sensorLoopEvents hasMetrics iters ++ [RunEvent.sendData iters]
        ++ (if hasMetrics then [RunEvent.gaugeDec] else []) ++ [RunEvent.tickerStop]

/-- Count of one event in a trace. -/
def countE (a : RunEvent) : List RunEvent → Nat
  | [] => 0
  | b :: bs => (if b = a then 1 else 0) + countE a bs

/-- countE distributes over append. -/
theorem countE_append (a : RunEvent) (xs ys : List RunEvent) :
    countE a (xs ++ ys) = countE a xs + countE a ys := by
  induction xs with
  | nil => simp [countE]
  | cons x xs ih =>
    have e1 : ((x :: xs) ++ ys) = x :: (xs ++ ys) := rfl
    rw [e1]
    simp only [countE]
    rw [ih]
    omega

/-- The loop body contains no gauge events. -/
theorem countE_gauge_loop (b : Bool) (k : Nat) :
    countE RunEvent.gaugeInc (sensorLoopEvents b k) = 0
    ∧ countE RunEvent.gaugeDec (sensorLoopEvents b k) = 0 := by
  induction k with
  | zero => exact ⟨rfl, rfl⟩
  | succ k ih =>
    cases b with
    | true =>
      simp only [sensorLoopEvents, countE_append, ih, countE]
      simp
    | false =>
      simp only [sensorLoopEvents, countE_append, ih, countE]
      simp

/-- C10: over one Sensor.Run invocation with a non-nil metrics reference
the ActiveSensors gauge is incremented exactly once (at entry) and
decremented exactly once, whether Run returns cleanly on cancellation or
is unwound by a panic during a send; with a nil metrics reference the
gauge is never touched.  Hence the net change over any completed
invocation is zero. -/
theorem C10_active_gauge_balanced (o : RunExit) :
    countE RunEvent.gaugeInc (sensorRunEvents true o) = 1
    ∧ countE RunEvent.gaugeDec (sensorRunEvents true o) = 1
    ∧ countE RunEvent.gaugeInc (sensorRunEvents false o) = 0
    ∧ countE RunEvent.gaugeDec (sensorRunEvents false o) = 0 := by
  cases o with
  | cleanReturn iters =>
    have hl := countE_gauge_loop true iters
    have hl2 := countE_gauge_loop false iters
    refine ⟨?_, ?_, ?_, ?_⟩ <;>
      simp [sensorRunEvents, countE_append, countE, hl.1, hl.2, hl2.1, hl2.2]
  | panicOnSend iters =>
    have hl := countE_gauge_loop true iters
    have hl2 := countE_gauge_loop false iters
    refine ⟨?_, ?_, ?_, ?_⟩ <;>
      simp [sensorRunEvents, countE_append, countE, hl.1, hl.2, hl2.1, hl2.2]

end IotSim
